import Mathlib

/-!
A shallow embedding of the Smart Locker backend (Express/MongoDB, one
server file) covering the shipment validation cache, the carrier
detector, the one-time-token deposit protocol, and the differential
weight-measurement sessions, together with proofs about the embedded
operations.

Conventions used throughout:
* JS strings are Lean `String`s restricted to ASCII (all data handled by
  the relevant endpoints is ASCII).
* JS numbers that carry weights are modelled as `ℚ`; `Number.toFixed(3)`
  followed by `parseFloat` is modelled as rounding to 3 decimal places
  (`round3`), which agrees with the JS double computation on all inputs
  appearing here (no ties, magnitudes far below 2^52).
* `Date.now()` timestamps are modelled by a logical clock (`Nat`).
* MongoDB collections are association lists; `findOne` is `List.find?`
  and a `save` replaces the matching record in place.
* `crypto.randomBytes`-based token generation cannot be modelled as
  randomness; it is modelled as an injective generator `randomToken`
  drawn from a counter held in the system state.  The only facts used
  about it are injectivity and whitespace-freeness.
-/

namespace SmartLocker

/- The Batteries rational-number operations are marked irreducible,
which blocks `decide` on concrete runs of the embedded operations; the
proofs here evaluate them, so restore default reducibility for this
development. -/
attribute [local semireducible] Rat.add Rat.mul Rat.sub Rat.inv

/-! ## String helpers (JS `trim` and `toUpperCase`) -/

/-- Whitespace characters removed by JS `String.prototype.trim` (the
ASCII ones; the data handled here is ASCII). -/
def isWs (c : Char) : Bool :=
  c = ' ' || c = '\t' || c = '\n' || c = '\r'

/-- JS `s.trim()`: drop whitespace from both ends. -/
def jsTrim (s : String) : String :=
  String.mk (((s.data.dropWhile isWs).reverse.dropWhile isWs).reverse)

/-- JS `s.toUpperCase()` on ASCII data. -/
def toUpperStr (s : String) : String :=
  String.mk (s.data.map Char.toUpper)

/-! ## Carrier detector (`detectCourierType`)

Direct translation of the ordered regex table:

```
if (/^(JNE|CGK)[A-Z0-9]{7,12}$/i.test(resi))  -> jne
if (/^(JT|JX)\d{10,14}$/i.test(resi))         -> jnt
if (/^TSA[A-Z0-9]{7,12}$/i.test(resi)
    || (/^[A-Z0-9]{10,15}$/i.test(resi) && resi.length >= 10)) -> anteraja
if (/^\d{12}$/i.test(resi))                   -> sicepat
if (/^(NLIDAP|NV)\d{8,12}$/i.test(resi))      -> ninja
if (/^RR\d{9}ID$/i.test(resi) || /^\d{13}$/i.test(resi)) -> pos
```
-/

/-- Character class `[A-Z0-9]` under the `/i` flag: ASCII letters of
either case, or a digit. -/
def isAlnumCh (c : Char) : Bool := c.isAlpha || c.isDigit

/-- Character class `\d`. -/
def isDigitCh (c : Char) : Bool := c.isDigit

/-- Case-insensitive character comparison (regex `/i`). -/
def ciEq (a b : Char) : Bool := a.toUpper = b.toUpper

/-- Case-insensitively strip a literal pattern from the front of the
input, returning the remainder on success. -/
def ciStrip : List Char → List Char → Option (List Char)
  | [], rest => some rest
  | _ :: _, [] => none
  | p :: ps, c :: cs => if ciEq p c then ciStrip ps cs else none

/-- Matches `{lo,hi}` repetitions of a character class, anchored to the
end of the input. -/
def spanClass (f : Char → Bool) (lo hi : Nat) (l : List Char) : Bool :=
  l.all f && decide (lo ≤ l.length) && decide (l.length ≤ hi)

/-- Regex `/^(JNE|CGK)[A-Z0-9]{7,12}$/i`. -/
def jneRule (l : List Char) : Bool :=
  (match ciStrip ['J', 'N', 'E'] l with
   | some rest => spanClass isAlnumCh 7 12 rest
   | none => false) ||
  (match ciStrip ['C', 'G', 'K'] l with
   | some rest => spanClass isAlnumCh 7 12 rest
   | none => false)

/-- Regex `/^(JT|JX)\d{10,14}$/i`. -/
def jntRule (l : List Char) : Bool :=
  (match ciStrip ['J', 'T'] l with
   | some rest => spanClass isDigitCh 10 14 rest
   | none => false) ||
  (match ciStrip ['J', 'X'] l with
   | some rest => spanClass isDigitCh 10 14 rest
   | none => false)

/-- Regex `/^TSA[A-Z0-9]{7,12}$/i`. -/
def tsaRule (l : List Char) : Bool :=
  match ciStrip ['T', 'S', 'A'] l with
  | some rest => spanClass isAlnumCh 7 12 rest
  | none => false

/-- Second AnterAja disjunct:
`/^[A-Z0-9]{10,15}$/i.test(resi) && resi.length >= 10`. -/
def anterajaCatchAll (l : List Char) : Bool :=
  spanClass isAlnumCh 10 15 l && decide (10 ≤ l.length)

/-- Regex `/^\d{12}$/i`. -/
def sicepatRule (l : List Char) : Bool := spanClass isDigitCh 12 12 l

/-- Regex `/^(NLIDAP|NV)\d{8,12}$/i`. -/
def ninjaRule (l : List Char) : Bool :=
  (match ciStrip ['N', 'L', 'I', 'D', 'A', 'P'] l with
   | some rest => spanClass isDigitCh 8 12 rest
   | none => false) ||
  (match ciStrip ['N', 'V'] l with
   | some rest => spanClass isDigitCh 8 12 rest
   | none => false)

/-- Regex `/^RR\d{9}ID$/i || /^\d{13}$/i`. -/
def posRule (l : List Char) : Bool :=
  (match ciStrip ['R', 'R'] l with
   | some rest =>
       (rest.take 9).all isDigitCh && decide (rest.length = 11) &&
         (match ciStrip ['I', 'D'] (rest.drop 9) with
          | some tail => tail.isEmpty
          | none => false)
   | none => false) ||
  spanClass isDigitCh 13 13 l

/-- Result shape of `detectCourierType`:
`{ detected: bool, courierType: string | null }`. -/
structure Detection where
  detected : Bool
  courierType : Option String
deriving DecidableEq, Repr

/-- The ordered first-match-wins classifier `detectCourierType(resi)`. -/
def detectCourierType (resi : String) : Detection :=
  let l := resi.data
  if l.length < 8 then ⟨false, none⟩
  else if jneRule l then ⟨true, some "jne"⟩
  else if jntRule l then ⟨true, some "jnt"⟩
  else if tsaRule l || anterajaCatchAll l then ⟨true, some "anteraja"⟩
  else if sicepatRule l then ⟨true, some "sicepat"⟩
  else if ninjaRule l then ⟨true, some "ninja"⟩
  else if posRule l then ⟨true, some "pos"⟩
  else ⟨false, none⟩

/-! ## Validation pipeline (`POST /api/customer/manual-resi`)

The cached-validation endpoint.  The external Binderbyte provider is
modelled as an oracle `provider : String → ProviderResp` from a courier
code to the outcome of one bounded-timeout call; timeouts, connection
errors, 404s and non-200 bodies are all collapsed into `fail`, exactly
as the handler's `catch`/status-check treats them. -/

/-- Outcome of one external provider call for one candidate courier.
`ok summary` corresponds to `status === 200 && data.summary` present;
everything else (timeout, 404, other error, missing summary) is `fail`. -/
inductive ProviderResp where
  | ok (summary : String)
  | fail
deriving DecidableEq, Repr

/-- A `CustomerTracking` document (the validation cache; one record per
requester per tracking number).  `binderbyteData` is the opaque
confirmed snapshot. -/
structure TrackRec where
  resi : String
  courierType : String
  customerId : String
  note : String
  validated : Bool
  validationAttempted : Bool
  binderbyteData : Option String
  jneNumber : Option String
  assignedLockerId : Option String
deriving DecidableEq, Repr

/-- The slice of a `Locker` document used by the auto-assignment step of
`manual-resi` (`Locker.findOne({customerId, status: 'online',
isActive: true})`). -/
structure MLocker where
  lockerId : String
  customerId : Option String
  status : String
  isActive : Bool
deriving DecidableEq, Repr

/-- Response of the `manual-resi` endpoint, abstracted to the cases the
handler can produce. -/
inductive MRes where
  | badRequest
  | alreadySubmitted
  | fromCacheOk (courierType : String) (snapshot : Option String)
      (assignedLockerId : Option String)
  | validatedOk (courierType : String) (summary : String)
      (assignedLockerId : Option String)
  | notFound
  | highConfidenceOk (courierType : String)
  | internalError
deriving DecidableEq, Repr

/-- The fixed candidate list of STEP 4:
`['jne','jnt','sicepat','anteraja','ninja','pos','tiki','wahana','lion','rpx']`. -/
def courierPriority : List String :=
  ["jne", "jnt", "sicepat", "anteraja", "ninja", "pos", "tiki", "wahana",
    "lion", "rpx"]

/-- JNE auxiliary-number format check `/^\d{5}$/.test(jneNumber.trim())`. -/
def jneNumberOk (jneNumber : Option String) : Bool :=
  match jneNumber with
  | none => false
  | some s => s ≠ "" && spanClass isDigitCh 5 5 (jsTrim s).data

/-- STEP 5 of `manual-resi`: try candidate couriers in order, skipping
JNE when the auxiliary number is missing or malformed (no call is made
for a skipped candidate), stopping at the first `ok`.  Returns the first
success (courier and summary) and the list of couriers actually called. -/
def tryCouriers (provider : String → ProviderResp) (jneNumber : Option String) :
    List String → Option (String × String) × List String
  | [] => (none, [])
  | c :: rest =>
    if c = "jne" && !jneNumberOk jneNumber then
      tryCouriers provider jneNumber rest
    else
      match provider c with
      | .ok summary => (some (c, summary), [c])
      | .fail =>
        let (r, calls) := tryCouriers provider jneNumber rest
        (r, c :: calls)

/-- The binding the STEP 6 fallback reads:
`if (highConfidence && courierPriority.length === 1)`.  No declaration
of `highConfidence` exists anywhere in the server file (the pattern
detection that once produced it was removed from this endpoint), so the
name lookup is `none`; evaluating the condition in JS therefore throws a
`ReferenceError`, which the handler's outer `catch` converts into a 500
response. -/
def highConfidenceBinding : Option Bool := none

/-- Locker auto-assignment used on both success paths:
`Locker.findOne({customerId: userId, status: 'online', isActive: true})`
(the `.sort` key `'pendingResi.length'` is not a real document field, so
it does not affect the order). -/
def autoAssignLocker (lockers : List MLocker) (userId : String) :
    Option String :=
  (lockers.find? fun l =>
    l.customerId = some userId && l.status = "online" && l.isActive).map
    (·.lockerId)

/-- The `manual-resi` handler.  Input: the `CustomerTracking` store, the
locker store, the provider oracle, the authenticated requester id, the
raw tracking number and the optional JNE auxiliary number.  Output: the
response, the updated store and the list of external calls made. -/
def manualResi (tracks : List TrackRec) (lockers : List MLocker)
    (provider : String → ProviderResp) (userId resi : String)
    (jneNumber : Option String) : MRes × List TrackRec × List String :=
  if jsTrim resi = "" then (.badRequest, tracks, [])
  else
    let cleanResi := toUpperStr (jsTrim resi)
    -- STEP 1: duplicate-submission guard for this requester
    match tracks.find? fun r => r.resi = cleanResi && r.customerId = userId with
    | some _ => (.alreadySubmitted, tracks, [])
    | none =>
      -- STEP 2: global cache (any requester, validated: true)
      match tracks.find? fun r => r.resi = cleanResi && r.validated with
      | some cached =>
        let assigned := autoAssignLocker lockers userId
        let newRec : TrackRec :=
          { resi := cleanResi, courierType := cached.courierType,
            customerId := userId, note := "Validated from cache",
            validated := true, validationAttempted := true,
            binderbyteData := cached.binderbyteData, jneNumber := none,
            assignedLockerId := assigned }
        (.fromCacheOk cached.courierType cached.binderbyteData assigned,
          tracks ++ [newRec], [])
      | none =>
        -- STEP 4/5: try all candidate couriers in order
        match tryCouriers provider jneNumber courierPriority with
        | (some (validCourier, summary), calls) =>
          -- STEP 7-9: persist and return
          let assigned := autoAssignLocker lockers userId
          let newRec : TrackRec :=
            { resi := cleanResi, courierType := validCourier,
              customerId := userId, note := "Validated by Binderbyte",
              validated := true, validationAttempted := true,
              binderbyteData := some summary,
              jneNumber := if validCourier = "jne" && jneNumber.isSome then
                  jneNumber.map jsTrim else none,
              assignedLockerId := assigned }
          (.validatedOk validCourier summary assigned, tracks ++ [newRec], calls)
        | (none, calls) =>
          -- STEP 6: every candidate exhausted.  The code now evaluates
          -- `highConfidence && courierPriority.length === 1`; since the
          -- identifier `highConfidence` is unbound this throws a
          -- ReferenceError and the outer catch answers 500, so neither
          -- the high-confidence acceptance below nor the 404 branch is
          -- ever reached.
          match highConfidenceBinding with
          | none => (.internalError, tracks, calls)
          | some hc =>
            if hc && courierPriority.length = 1 then
              (.highConfidenceOk (courierPriority.headD ""), tracks, calls)
            else (.notFound, tracks, calls)

/-! ## Data model for shipments, lockers and weight sessions

The status strings written by the server are exactly
`"pending_locker"`, `"delivered_to_locker"`, `"ready_for_pickup"` and
`"completed"` (every creation site passes `status: "pending_locker"`
explicitly), modelled as an inductive type.  The spec names map as
pending_locker = awaiting_deposit and completed = delivered_to_customer. -/

/-- Shipment status values written by the server. -/
inductive ShipStatus where
  | pending_locker
  | delivered_to_locker
  | ready_for_pickup
  | completed
deriving DecidableEq, Repr

/-- Position of a status in the lifecycle order
awaiting_deposit < delivered_to_locker < ready_for_pickup <
delivered_to_customer. -/
def statusRank : ShipStatus → Nat
  | .pending_locker => 0
  | .delivered_to_locker => 1
  | .ready_for_pickup => 2
  | .completed => 3

/-- An entry of a shipment's append-only `logs` array (the free-form
`extra` payload is omitted; nothing reads it). -/
structure LogEntry where
  event : String
  lockerId : String
  resi : String
  timestamp : Nat
deriving DecidableEq, Repr

/-- A `Shipment` document (fields not read by the modelled operations,
such as receiver name/phone and item type, are omitted). -/
structure Shipment where
  resi : String
  lockerId : String
  courierType : String
  courierId : String
  courierPlate : String
  customerId : String
  status : ShipStatus
  weight : Option ℚ
  weightRecordedAt : Option Nat
  logs : List LogEntry
  deliveredToLockerAt : Option Nat
  pickedUpAt : Option Nat
deriving DecidableEq, Repr

/-- An entry of a locker's append-only `courierHistory` audit list
(courier name and plate are carried along in the source but never read;
they are omitted here). -/
structure HistEntry where
  courierId : String
  resi : String
  deliveredAt : Nat
  usedToken : String
deriving DecidableEq, Repr

/-- The one-shot `command` slot of a locker. -/
structure Command where
  type : String
  resi : String
  source : String
  createdAt : Nat
deriving DecidableEq, Repr

/-- A `Locker` document (owner/debug fields omitted).  An empty
`lockerToken` models a document whose token field is null/missing,
which the deposit endpoints reject via `!locker.lockerToken`. -/
structure Locker where
  lockerId : String
  lockerToken : String
  tokenUpdatedAt : Option Nat
  pendingResi : List String
  courierHistory : List HistEntry
  command : Option Command
  isActive : Bool
  status : String
deriving DecidableEq, Repr

/-- One entry of a weight session's `readings` array. -/
structure WeightReading where
  weight : ℚ
  timestamp : Nat
deriving DecidableEq, Repr

/-- An in-memory weight session (`weightSessions.get(lockerId)`). -/
structure WeightSession where
  sessionId : String
  resi : String
  startedAt : Nat
  readings : List WeightReading
  active : Bool
deriving DecidableEq, Repr

/-- The whole mutable state touched by the modelled endpoints: the
`lockers` and `shipments` collections, the in-memory `weightSessions`
map, the fresh-token counter backing `randomToken`, and a logical
clock standing in for `Date.now()`. -/
structure System where
  lockers : List Locker
  shipments : List Shipment
  sessions : List (String × WeightSession)
  tokCtr : Nat
  clock : Nat
deriving DecidableEq, Repr

/-- Model of `randomToken("LK-" + lockerId)`
(= prefix + 12 hex chars from `crypto.randomBytes(6)`).  Randomness is
modelled by drawing from the system's counter; the facts the proofs use
are injectivity and absence of surrounding whitespace, both of which
hold for the real generator up to hash collisions. -/
def randomToken (n : Nat) : String :=
  "LK-" ++ String.mk (List.replicate (n + 1) 'x')

/-- Model of `parseFloat(x.toFixed(3))` on the non-negative values the
server applies it to: round to the nearest thousandth, ties upward. -/
def round3 (q : ℚ) : ℚ := (Rat.floor (q * 1000 + 1/2) : ℤ) / 1000

/-- `Locker.findOne({ lockerId })`. -/
def findLocker (s : System) (id : String) : Option Locker :=
  s.lockers.find? fun l => l.lockerId = id

/-- `locker.save()`: replace the document with the same `lockerId`. -/
def saveLocker (L : List Locker) (l : Locker) : List Locker :=
  L.map fun x => if x.lockerId = l.lockerId then l else x

/-- `Shipment.findOne({ resi })`. -/
def findShipment (s : System) (resi : String) : Option Shipment :=
  s.shipments.find? fun sh => sh.resi = resi

/-- `Shipment.findOne({ resi, lockerId })`. -/
def findShipmentAt (s : System) (resi lockerId : String) : Option Shipment :=
  s.shipments.find? fun sh => sh.resi = resi ∧ sh.lockerId = lockerId

/-- `shipment.save()`: replace the document with the same `resi`. -/
def saveShipment (L : List Shipment) (sh : Shipment) : List Shipment :=
  L.map fun x => if x.resi = sh.resi then sh else x

/-- `weightSessions.get(lockerId)`. -/
def getSession (s : System) (id : String) : Option WeightSession :=
  (s.sessions.find? fun p => p.1 = id).map fun p => p.2

/-- `weightSessions.set(lockerId, sess)`: overwrite or insert. -/
def setSession (S : List (String × WeightSession)) (id : String)
    (w : WeightSession) : List (String × WeightSession) :=
  if (S.find? fun p => p.1 = id).isSome then
    S.map fun p => if p.1 = id then (id, w) else p
  else S ++ [(id, w)]

/-- Helper `getLocker(lockerId)`: fetch the locker, auto-creating it
with a fresh token when absent. -/
def getLocker (s : System) (id : String) : Locker × System :=
  match findLocker s id with
  | some l => (l, s)
  | none =>
    let l : Locker :=
      { lockerId := id, lockerToken := randomToken s.tokCtr,
        tokenUpdatedAt := none, pendingResi := [], courierHistory := [],
        command := none, isActive := true, status := "unknown" }
    (l, { s with lockers := s.lockers ++ [l], tokCtr := s.tokCtr + 1 })

/-- Abstracted endpoint responses (HTTP status plus the diagnostic
fields the claims mention). -/
inductive Res where
  | success
  | missingFields
  | lockerNotFound
  | tokenInvalid
  | wrongLocker (expectedLockerId scannedLockerId : String)
  | shipmentNotFound
  | invalidState (currentStatus : ShipStatus)
  | resiNotPending (pending : List String)
  | plateNoMatch
  | noActiveSession
  | insufficientReadings
  | invalidWeight
  | finalized (weight : ℚ) (alreadyRecorded : Bool)
  | readingOk (count : Nat)
  | logOk
  | assigned
deriving DecidableEq, Repr

/-- `POST /api/courier/deposit-resi` (the one-time-token deposit; the
optional `debug` echo is not modelled since it persists nothing on any
path relevant here). -/
def execDepositResi (s : System) (lockerId tok resi : String) :
    System × Res :=
  if lockerId = "" ∨ tok = "" ∨ resi = "" then (s, .missingFields)
  else
    match findLocker s lockerId with
    | none => (s, .lockerNotFound)
    | some locker =>
      -- if (!locker.lockerToken || locker.lockerToken !== lockerToken.trim())
      if locker.lockerToken = "" ∨ locker.lockerToken ≠ jsTrim tok then
        (s, .tokenInvalid)
      else
        match findShipmentAt s resi lockerId with
        | none =>
          match findShipment s resi with
          | some sh => (s, .wrongLocker sh.lockerId lockerId)
          | none => (s, .shipmentNotFound)
        | some sh =>
          if sh.status ≠ .pending_locker then (s, .invalidState sh.status)
          else
            -- auto-fix: add to pendingResi if not already there
            let locker1 :=
              if resi ∈ locker.pendingResi then locker
              else { locker with pendingResi := locker.pendingResi ++ [resi] }
            let sh1 :=
              { sh with
                status := .delivered_to_locker,
                deliveredToLockerAt := some s.clock,
                logs := sh.logs ++
                  [⟨"delivered_to_locker", lockerId, resi, s.clock⟩] }
            -- command, remove from pendingResi, history (usedToken =
            -- the old token), rotate
            let locker2 :=
              { locker1 with
                command := some ⟨"open", resi, "courier_resi", s.clock⟩,
                pendingResi := locker1.pendingResi.filter fun r => r ≠ resi,
                courierHistory := locker1.courierHistory ++
                  [⟨sh.courierId, resi, s.clock, locker.lockerToken⟩],
                lockerToken := randomToken s.tokCtr,
                tokenUpdatedAt := some s.clock }
            ({ s with
               lockers := saveLocker s.lockers locker2,
               shipments := saveShipment s.shipments sh1,
               tokCtr := s.tokCtr + 1, clock := s.clock + 1 }, .success)

/-- `POST /api/courier/deposit-token`: same protocol as `deposit-resi`
plus an optional measured weight recorded when positive
(`weight && !isNaN(weight) && weight > 0`); its history entry stores the
presented token string. -/
def execDepositToken (s : System) (lockerId tok resi : String)
    (weight : Option ℚ) : System × Res :=
  if lockerId = "" ∨ tok = "" ∨ resi = "" then (s, .missingFields)
  else
    match findLocker s lockerId with
    | none => (s, .lockerNotFound)
    | some locker =>
      if locker.lockerToken = "" ∨ locker.lockerToken ≠ jsTrim tok then
        (s, .tokenInvalid)
      else
        match findShipmentAt s resi lockerId with
        | none =>
          match findShipment s resi with
          | some sh => (s, .wrongLocker sh.lockerId lockerId)
          | none => (s, .shipmentNotFound)
        | some sh =>
          if sh.status ≠ .pending_locker then (s, .invalidState sh.status)
          else
            let locker1 :=
              if resi ∈ locker.pendingResi then locker
              else { locker with pendingResi := locker.pendingResi ++ [resi] }
            let shW :=
              match weight with
              | some w =>
                if 0 < w then
                  { sh with
                    weight := some (round3 w),
                    weightRecordedAt := some s.clock }
                else sh
              | none => sh
            let sh1 :=
              { shW with
                status := .delivered_to_locker,
                deliveredToLockerAt := some s.clock,
                logs := shW.logs ++
                  [⟨"delivered_to_locker", lockerId, resi, s.clock⟩] }
            let locker2 :=
              { locker1 with
                courierHistory := locker1.courierHistory ++
                  [⟨sh.courierId, resi, s.clock, tok⟩],
                command := some ⟨"open", resi, "courier_token", s.clock⟩,
                pendingResi := locker1.pendingResi.filter fun r => r ≠ resi,
                lockerToken := randomToken s.tokCtr,
                tokenUpdatedAt := some s.clock }
            ({ s with
               lockers := saveLocker s.lockers locker2,
               shipments := saveShipment s.shipments sh1,
               tokCtr := s.tokCtr + 1, clock := s.clock + 1 }, .success)

/-- `POST /api/locker/:lockerId/deposit` (the old-mode deposit): token
compared without trim and without the empty-token guard, membership in
`pendingResi` required (no self-heal), and no locker-assignment or
status check on the shipment. -/
def execLegacyDeposit (s : System) (lockerId tok resi : String) :
    System × Res :=
  if tok = "" ∨ resi = "" then (s, .missingFields)
  else
    let p := getLocker s lockerId
    let locker := p.1
    let s0 := p.2
    if tok ≠ locker.lockerToken then (s0, .tokenInvalid)
    else if resi ∉ locker.pendingResi then
      (s0, .resiNotPending locker.pendingResi)
    else
      match findShipment s0 resi with
      | none => (s0, .shipmentNotFound)
      | some sh =>
        let sh1 :=
          { sh with
            status := .delivered_to_locker,
            deliveredToLockerAt := some s0.clock,
            logs := sh.logs ++
              [⟨"delivered_to_locker", lockerId, resi, s0.clock⟩] }
        let locker2 :=
          { locker with
            courierHistory := locker.courierHistory ++
              [⟨sh.courierId, resi, s0.clock, tok⟩],
            pendingResi := locker.pendingResi.filter fun r => r ≠ resi,
            command := some ⟨"open", resi, "courier", s0.clock⟩,
            lockerToken := randomToken s0.tokCtr,
            tokenUpdatedAt := some s0.clock }
        ({ s0 with
           lockers := saveLocker s0.lockers locker2,
           shipments := saveShipment s0.shipments sh1,
           tokCtr := s0.tokCtr + 1, clock := s0.clock + 1 }, .success)

/-- `POST /api/courier/deposit` (deposit by plate): the locker is looked
up by the presented (trimmed) token, the shipment by normalized plate,
`pending_locker` status and that locker. -/
def execDepositPlate (s : System) (tok plate : String) : System × Res :=
  if tok = "" ∨ plate = "" then (s, .missingFields)
  else
    let normPlate := toUpperStr (jsTrim plate)
    match s.lockers.find? (fun l => l.lockerToken = jsTrim tok) with
    | none => (s, .lockerNotFound)
    | some locker =>
      match s.shipments.find? (fun sh =>
          sh.courierPlate = normPlate ∧ sh.status = ShipStatus.pending_locker ∧
            sh.lockerId = locker.lockerId) with
      | none => (s, .plateNoMatch)
      | some sh =>
        let sh1 :=
          { sh with
            status := .delivered_to_locker,
            deliveredToLockerAt := some s.clock,
            logs := sh.logs ++
              [⟨"delivered_to_locker", locker.lockerId, sh.resi, s.clock⟩] }
        let locker2 :=
          { locker with
            courierHistory := locker.courierHistory ++
              [⟨sh.courierId, sh.resi, s.clock, tok⟩],
            pendingResi := locker.pendingResi.filter fun r => r ≠ sh.resi,
            command := some ⟨"open", sh.resi, "courier", s.clock⟩,
            lockerToken := randomToken s.tokCtr,
            tokenUpdatedAt := some s.clock }
        ({ s with
           lockers := saveLocker s.lockers locker2,
           shipments := saveShipment s.shipments sh1,
           tokCtr := s.tokCtr + 1, clock := s.clock + 1 }, .success)

/-- The shipment update of one controller log entry: append the entry,
then apply the two guarded transitions (`locker_closed` on
`delivered_to_locker` advances to `ready_for_pickup`;
`opened_by_customer` sets `completed`). -/
def logTransition (event lockerId resi : String) (clock : Nat)
    (sh : Shipment) : Shipment :=
  let sh1 := { sh with logs := sh.logs ++ [⟨event, lockerId, resi, clock⟩] }
  let sh2 :=
    if event = "locker_closed" ∧ sh1.status = .delivered_to_locker then
      { sh1 with status := .ready_for_pickup }
    else sh1
  if event = "opened_by_customer" then
    { sh2 with status := .completed, pickedUpAt := some clock }
  else sh2

/-- `POST /api/locker/:lockerId/log` (controller log events). -/
def execLog (s : System) (lockerId event resi : String) : System × Res :=
  match (if resi ≠ "" then findShipment s resi else none) with
  | none => ({ s with clock := s.clock + 1 }, .logOk)
  | some sh =>
    ({ s with
       shipments := saveShipment s.shipments
         (logTransition event lockerId resi s.clock sh),
       clock := s.clock + 1 }, .logOk)

/-- The per-tracking-number body of the `POST /api/shipments` loop:
either re-add an existing shipment to the locker's pending set (unless
completed or delivered to the locker) or create a fresh
`pending_locker` shipment and add it to the pending set. -/
def assignStep (lockerId courierType plate : String) (clock : Nat)
    (acc : Locker × List Shipment) (resi0 : String) :
    Locker × List Shipment :=
  let lk := acc.1
  let shs := acc.2
  let normalizedResi := jsTrim resi0
  match shs.find? (fun sh => sh.resi = normalizedResi) with
  | some sh =>
    if normalizedResi ∉ lk.pendingResi ∧ sh.status ≠ .completed ∧
        sh.status ≠ .delivered_to_locker then
      ({ lk with pendingResi := lk.pendingResi ++ [normalizedResi] }, shs)
    else (lk, shs)
  | none =>
    let sh : Shipment :=
      { resi := normalizedResi, lockerId := lockerId,
        courierType := courierType, courierId := "",
        courierPlate := if plate ≠ "" then toUpperStr (jsTrim plate)
          else "",
        customerId := "", status := .pending_locker, weight := none,
        weightRecordedAt := none,
        logs := [⟨"assigned_to_locker", lockerId, normalizedResi, clock⟩],
        deliveredToLockerAt := none, pickedUpAt := none }
    let lk1 :=
      if normalizedResi ∉ lk.pendingResi then
        { lk with pendingResi := lk.pendingResi ++ [normalizedResi] }
      else lk
    (lk1, shs ++ [sh])

/-- `POST /api/shipments` (agent assignment): fold `assignStep` over the
submitted tracking numbers; the courier-account branches are those taken
with no `courierId` supplied. -/
def execAssign (s : System) (lockerId courierType : String)
    (resiList : List String) (plate : String) : System × Res :=
  if lockerId = "" ∨ courierType = "" ∨ resiList = [] then
    (s, .missingFields)
  else
    let p := getLocker s lockerId
    let locker0 := p.1
    let s0 := p.2
    let q := resiList.foldl (assignStep lockerId courierType plate s0.clock)
      (locker0, s0.shipments)
    ({ s0 with
       lockers := saveLocker s0.lockers q.1, shipments := q.2,
       clock := s0.clock + 1 }, .assigned)

/-- `POST /api/locker/:lockerId/weight/start`: create or overwrite the
session for the locker with an empty reading list. -/
def execWeightStart (s : System) (lockerId resi : String) : System × Res :=
  if resi = "" then (s, .missingFields)
  else
    let sess : WeightSession :=
      { sessionId := lockerId ++ "-" ++ toString s.clock,
        resi := toUpperStr (jsTrim resi), startedAt := s.clock,
        readings := [], active := true }
    ({ s with
       sessions := setSession s.sessions lockerId sess,
       clock := s.clock + 1 }, .success)

/-- `POST /api/locker/:lockerId/weight/reading`: range-check the value
(0 to 50 kg) and append it to the active session. -/
def execWeightReading (s : System) (lockerId : String) (w : ℚ) :
    System × Res :=
  if w < 0 ∨ 50 < w then (s, .invalidWeight)
  else
    match getSession s lockerId with
    | none => (s, .noActiveSession)
    | some sess =>
      if sess.active = false then (s, .noActiveSession)
      else
        let sess1 :=
          { sess with readings := sess.readings ++ [⟨w, s.clock⟩] }
        ({ s with
           sessions := setSession s.sessions lockerId sess1,
           clock := s.clock + 1 }, .readingOk sess1.readings.length)

/-- `POST /api/locker/:lockerId/weight/finalize`: needs an active
session with at least two readings; computes
`parseFloat(Math.abs(first - last).toFixed(3))`; a shipment with an
already-recorded weight is left untouched (no-op success); every exit
past the readings check deactivates the session. -/
def execWeightFinalize (s : System) (lockerId : String) : System × Res :=
  match getSession s lockerId with
  | none => (s, .noActiveSession)
  | some sess =>
    if sess.active = false then (s, .noActiveSession)
    else if sess.readings.length < 2 then (s, .insufficientReadings)
    else
      let initialWeight := (sess.readings.headD ⟨0, 0⟩).weight
      let finalWeight := (sess.readings.getLastD ⟨0, 0⟩).weight
      let packageWeight := round3 |initialWeight - finalWeight|
      match findShipment s sess.resi with
      | none =>
        let sess1 := { sess with active := false }
        ({ s with
           sessions := setSession s.sessions lockerId sess1,
           clock := s.clock + 1 }, .shipmentNotFound)
      | some sh =>
        match sh.weight with
        | some w0 =>
          let sess1 := { sess with active := false }
          ({ s with
             sessions := setSession s.sessions lockerId sess1,
             clock := s.clock + 1 }, .finalized w0 true)
        | none =>
          let sh1 :=
            { sh with
              weight := some packageWeight,
              weightRecordedAt := some s.clock,
              logs := sh.logs ++
                [⟨"weight_recorded_differential", lockerId, sh.resi,
                  s.clock⟩] }
          let sess1 := { sess with active := false }
          ({ s with
             shipments := saveShipment s.shipments sh1,
             sessions := setSession s.sessions lockerId sess1,
             clock := s.clock + 1 }, .finalized packageWeight false)

/-- The operations of the modelled core, with their request inputs. -/
inductive Op where
  | assign (lockerId courierType : String) (resiList : List String)
      (plate : String)
  | depositResi (lockerId tok resi : String)
  | depositToken (lockerId tok resi : String) (weight : Option ℚ)
  | legacyDeposit (lockerId tok resi : String)
  | depositPlate (tok plate : String)
  | logEvent (lockerId event resi : String)
  | weightStart (lockerId resi : String)
  | weightReading (lockerId : String) (w : ℚ)
  | weightFinalize (lockerId : String)
deriving DecidableEq, Repr

/-- One request against the backend. -/
def exec (s : System) : Op → System × Res
  | .assign a b c d => execAssign s a b c d
  | .depositResi a b c => execDepositResi s a b c
  | .depositToken a b c w => execDepositToken s a b c w
  | .legacyDeposit a b c => execLegacyDeposit s a b c
  | .depositPlate a b => execDepositPlate s a b
  | .logEvent a b c => execLog s a b c
  | .weightStart a b => execWeightStart s a b
  | .weightReading a w => execWeightReading s a w
  | .weightFinalize a => execWeightFinalize s a

/-- The empty initial state. -/
def initSystem : System :=
  { lockers := [], shipments := [], sessions := [], tokCtr := 0, clock := 0 }

/-- Run a sequence of requests. -/
def runOps (s : System) (ops : List Op) : System :=
  ops.foldl (fun t op => (exec t op).1) s

/-- Whether an operation is one of the four deposit endpoints. -/
def isDeposit : Op → Bool
  | .depositResi _ _ _ => true
  | .depositToken _ _ _ _ => true
  | .legacyDeposit _ _ _ => true
  | .depositPlate _ _ => true
  | _ => false

/-- The access token presented by a deposit request. -/
def presentedTok : Op → Option String
  | .depositResi _ tok _ => some tok
  | .depositToken _ tok _ _ => some tok
  | .legacyDeposit _ tok _ => some tok
  | .depositPlate tok _ => some tok
  | _ => none

/-- The locker a deposit request addresses (for `deposit-plate` it is
found by token; for the legacy endpoint it may be auto-created). -/
def depTarget (s : System) : Op → Option Locker
  | .depositResi lockerId _ _ => findLocker s lockerId
  | .depositToken lockerId _ _ _ => findLocker s lockerId
  | .legacyDeposit lockerId _ _ => some (getLocker s lockerId).1
  | .depositPlate tok _ =>
      s.lockers.find? fun l => l.lockerToken = jsTrim tok
  | _ => none

/-- The stored token a deposit call matches against (and consumes on
success). -/
def consumedTok (s : System) (op : Op) : Option String :=
  (depTarget s op).map fun l => l.lockerToken

/-- The live token of every locker in the store. -/
def liveToks (s : System) : List String :=
  s.lockers.map fun l => l.lockerToken

/-- Whether an operation is the legacy (old-mode) deposit endpoint. -/
def isLegacy : Op → Bool
  | .legacyDeposit _ _ _ => true
  | _ => false

/-- Between two states, every shipment's status is preserved or
advanced along the lifecycle order (and no shipment disappears). -/
def shipMono (s sNew : System) : Prop :=
  ∀ resi sh, findShipment s resi = some sh →
    ∃ sh2, findShipment sNew resi = some sh2 ∧
      statusRank sh.status ≤ statusRank sh2.status

/-- The locker id of every locker in the store. -/
def lockerIds (s : System) : List String :=
  s.lockers.map fun l => l.lockerId

/-- Token-state invariant maintained by every endpoint: locker ids are
unique, no two lockers share an access token, and every stored token
was generated at a counter value below the current one. -/
def TokInv (s : System) : Prop :=
  (lockerIds s).Nodup ∧ (liveToks s).Nodup ∧
  ∀ l ∈ s.lockers, ∃ k, k < s.tokCtr ∧ l.lockerToken = randomToken k

/-- One-step token evolution: the invariant is preserved, the counter
never decreases, and every live token is either an old live token or a
token freshly generated at or above the old counter. -/
def TokStep (s s2 : System) : Prop :=
  TokInv s2 ∧ s.tokCtr ≤ s2.tokCtr ∧
  ∀ t, t ∈ liveToks s2 →
    t ∈ liveToks s ∨ ∃ m, s.tokCtr ≤ m ∧ t = randomToken m


/-! ## Helper lemmas -/

/-- A digit character's code point lies in 48..57. -/
lemma digit_toNat_range (c : Char) (hc : isDigitCh c = true) :
    48 ≤ c.toNat ∧ c.toNat ≤ 57 := by
  simp [isDigitCh, Char.isDigit] at hc
  obtain ⟨ha, hb⟩ := hc
  constructor
  · simpa [Char.toNat, UInt32.le_def, Fin.le_def] using ha
  · simpa [Char.toNat, UInt32.le_def, Fin.le_def] using hb

/-- An uppercase letter never case-insensitively equals a digit. -/
lemma ciEq_upper_digit (p c : Char) (hp : 65 ≤ p.toNat ∧ p.toNat ≤ 90)
    (hc : isDigitCh c = true) : ciEq p c = false := by
  obtain ⟨ha2, hb2⟩ := digit_toNat_range c hc
  simp [ciEq, Char.toUpper, Char.isLower]
  rw [if_neg (by omega : ¬(97 ≤ p.toNat ∧ p.toNat ≤ 122)),
    if_neg (by omega : ¬(97 ≤ c.toNat ∧ c.toNat ≤ 122))]
  intro he
  have h74 : p.toNat = c.toNat := congrArg Char.toNat he
  omega

/-- A literal pattern fails to strip when its first character mismatches. -/
lemma ciStrip_head_false (p : Char) (ps : List Char) (c : Char)
    (cs : List Char) (h : ciEq p c = false) :
    ciStrip (p :: ps) (c :: cs) = none := by
  simp [ciStrip, h]

/-- The JNE rule rejects input starting with a digit. -/
lemma jneRule_digit_head (c : Char) (cs : List Char)
    (hc : isDigitCh c = true) : jneRule (c :: cs) = false := by
  rw [jneRule,
    ciStrip_head_false _ _ _ _ (ciEq_upper_digit 'J' c (by decide) hc),
    ciStrip_head_false _ _ _ _ (ciEq_upper_digit 'C' c (by decide) hc)]
  rfl

/-- The J&T rule rejects input starting with a digit. -/
lemma jntRule_digit_head (c : Char) (cs : List Char)
    (hc : isDigitCh c = true) : jntRule (c :: cs) = false := by
  rw [jntRule,
    ciStrip_head_false _ _ _ _ (ciEq_upper_digit 'J' c (by decide) hc),
    ciStrip_head_false _ _ _ _ (ciEq_upper_digit 'J' c (by decide) hc)]
  rfl

/-- The TSA rule rejects input starting with a digit. -/
lemma tsaRule_digit_head (c : Char) (cs : List Char)
    (hc : isDigitCh c = true) : tsaRule (c :: cs) = false := by
  rw [tsaRule,
    ciStrip_head_false _ _ _ _ (ciEq_upper_digit 'T' c (by decide) hc)]

/-! ## Claim C10 (confirmed) -/

/-- C10: every input of 10 to 15 alphanumeric characters that matches
none of the earlier JNE (JNE/CGK prefix), J&T (JT/JX prefix plus
digits) and TSA-prefix rules is classified by `detectCourierType` as
the carrier anteraja (detected); in particular every string of exactly
12 digits is classified as anteraja, so the later exactly-12-digit
SiCepat rule, the NV-prefix Ninja rule and the 13-digit POS rule can
never fire for such inputs (the function already returned anteraja, a
different carrier). -/
theorem claim10_detector_anteraja_catch_all :
    (∀ s : String, s.data.all isAlnumCh = true → 10 ≤ s.data.length →
      s.data.length ≤ 15 → jneRule s.data = false → jntRule s.data = false →
      tsaRule s.data = false →
      detectCourierType s = ⟨true, some "anteraja"⟩)
    ∧ (∀ s : String, s.data.all isDigitCh = true → s.data.length = 12 →
      detectCourierType s = ⟨true, some "anteraja"⟩) := by
  have part1 : ∀ s : String, s.data.all isAlnumCh = true →
      10 ≤ s.data.length → s.data.length ≤ 15 → jneRule s.data = false →
      jntRule s.data = false → tsaRule s.data = false →
      detectCourierType s = ⟨true, some "anteraja"⟩ := by
    intro s halnum hlo hhi hjne hjnt htsa
    rw [detectCourierType]
    simp only [hjne, htsa]
    rw [if_neg (by omega : ¬s.data.length < 8), if_neg (by simp),
      if_neg (by simp [hjnt])]
    rw [if_pos]
    have hsl : s.length = s.data.length := rfl
    simp [anterajaCatchAll, spanClass, halnum]
    omega
  refine ⟨part1, ?_⟩
  intro s hdig hlen
  obtain ⟨c, cs, hcons⟩ : ∃ c cs, s.data = c :: cs := by
    cases h : s.data with
    | nil => rw [h] at hlen; simp at hlen
    | cons c cs => exact ⟨c, cs, rfl⟩
  have hc : isDigitCh c = true := by
    have hd := hdig
    rw [hcons] at hd
    simp [List.all_cons] at hd
    exact hd.1
  have halnum : s.data.all isAlnumCh = true := by
    refine List.all_eq_true.mpr ?_
    intro x hx
    have hxd := List.all_eq_true.mp hdig x hx
    simp [isAlnumCh]
    simp [isDigitCh] at hxd
    simp [hxd]
  exact part1 s halnum (by omega) (by omega)
    (by rw [hcons]; exact jneRule_digit_head c cs hc)
    (by rw [hcons]; exact jntRule_digit_head c cs hc)
    (by rw [hcons]; exact tsaRule_digit_head c cs hc)

/-- Witness for C10 at the concrete inputs "Z123456789" (a 10-character
alphanumeric string matching none of the three earlier rules) and the
12-digit string "123456789012". -/
theorem claim10_detector_anteraja_catch_all_witness :
    detectCourierType "Z123456789" = ⟨true, some "anteraja"⟩ ∧
    detectCourierType "123456789012" = ⟨true, some "anteraja"⟩ :=
  ⟨claim10_detector_anteraja_catch_all.1 "Z123456789" (by decide)
      (by decide) (by decide) (by decide) (by decide) (by decide),
    claim10_detector_anteraja_catch_all.2 "123456789012" (by decide)
      (by decide)⟩

/-! ## Claim C1 (code_bug)

The spec (and the handler's own comment block, the repository docs
COURIER-DETECTION-FIX.md, and the pattern-test script) describe a
high-confidence fallback: a tracking number matching an unambiguous
pattern whose provider lookups all fail should still be accepted with
the pattern-implied carrier, and otherwise the submission should fail
with NotFound (404).  The code cannot do either: the branch reads the
identifier `highConfidence`, which has no declaration anywhere in the
file (the pattern-detection code that once bound it was removed from
this endpoint, and `courierPriority` is now a fixed 10-element list),
so evaluation throws a ReferenceError and the outer catch answers 500
for every cache-miss submission whose provider trials are exhausted. -/

/-- C1: evaluating the `manual-resi` handler at the failing input — a
fresh 12-digit tracking number ("123456789012", matching the detector's
unambiguous high-confidence shape), an empty cache, and a provider for
which every candidate call fails — produces the 500 internal error of
the ReferenceError path: not the claimed acceptance with the
pattern-implied carrier, and not the claimed NotFound either.  The nine
calls made (JNE is skipped for lack of the auxiliary number) show the
candidate loop was exhausted. -/
theorem claim1_high_confidence_fallback_broken :
    manualResi [] [] (fun _ => .fail) "U1" "123456789012" none =
      (.internalError, [],
        ["jnt", "sicepat", "anteraja", "ninja", "pos", "tiki", "wahana",
          "lion", "rpx"]) ∧
    (∀ ct, MRes.internalError ≠ .highConfidenceOk ct) ∧
    MRes.internalError ≠ .notFound := by
  refine ⟨by decide, ?_, by decide⟩
  intro ct
  simp

/-! ## Claim C3 (corrected)

The cache-hit clone is real, but it is reachable only for a requester
who does not already have a record for the tracking number: STEP 1 (the
duplicate-submission guard, which matches any record of this requester
for this number, validated or not) runs before the STEP 2 cache lookup,
so the original submitter — included in the claim's "any requester" —
receives AlreadySubmitted instead of the cached clone. -/

/-- C3 counterexample: requester U1 has a validated cache record for
"RESIX12345"; U1 submits the same number again.  The claim says the
submission clones the cached record and returns it marked from cache;
the code returns AlreadySubmitted and writes nothing. -/
theorem claim3_cache_counterexample :
    (manualResi
      [{ resi := "RESIX12345", courierType := "jne", customerId := "U1",
         note := "Validated by Binderbyte", validated := true,
         validationAttempted := true, binderbyteData := some "snap",
         jneNumber := none, assignedLockerId := none }]
      [] (fun _ => .fail) "U1" "RESIX12345" none).1 = .alreadySubmitted ∧
    (∀ ct sn lk, MRes.alreadySubmitted ≠ .fromCacheOk ct sn lk) := by
  refine ⟨by decide, ?_⟩
  intro ct sn lk
  simp

/-- C3 (amended): for every tracking number with a previously completed
successful validation, a later submission by any requester who does not
already have a record for that number performs no external provider
call: it clones the cached record's carrier and snapshot into a new
requester-scoped record and returns them immediately, marked as from
cache.  (A requester who already submitted the number is rejected with
AlreadySubmitted — also without an external call.) -/
theorem claim3_cache_clone_amended (tracks : List TrackRec)
    (lockers : List MLocker) (provider : String → ProviderResp)
    (userId resi : String) (jneNumber : Option String) (cached : TrackRec)
    (hne : jsTrim resi ≠ "")
    (hdup : tracks.find?
      (fun r => r.resi = toUpperStr (jsTrim resi) && r.customerId = userId)
      = none)
    (hcache : tracks.find?
      (fun r => r.resi = toUpperStr (jsTrim resi) && r.validated)
      = some cached) :
    manualResi tracks lockers provider userId resi jneNumber =
      (.fromCacheOk cached.courierType cached.binderbyteData
          (autoAssignLocker lockers userId),
        tracks ++
          [{ resi := toUpperStr (jsTrim resi),
             courierType := cached.courierType, customerId := userId,
             note := "Validated from cache", validated := true,
             validationAttempted := true,
             binderbyteData := cached.binderbyteData, jneNumber := none,
             assignedLockerId := autoAssignLocker lockers userId }],
        []) := by
  rw [manualResi, if_neg (by simpa using hne)]
  simp only [hdup, hcache]

/-- Witness for the amended C3: requester U2 (with no record) submits
the number cached by U1 and receives the cached clone with no external
call. -/
theorem claim3_cache_clone_amended_witness :
    manualResi
      [{ resi := "RESIX12345", courierType := "jne", customerId := "U1",
         note := "Validated by Binderbyte", validated := true,
         validationAttempted := true, binderbyteData := some "snap",
         jneNumber := none, assignedLockerId := none }]
      [] (fun _ => .fail) "U2" "RESIX12345" none =
      (.fromCacheOk "jne" (some "snap") none,
        [{ resi := "RESIX12345", courierType := "jne", customerId := "U1",
           note := "Validated by Binderbyte", validated := true,
           validationAttempted := true, binderbyteData := some "snap",
           jneNumber := none, assignedLockerId := none },
         { resi := "RESIX12345", courierType := "jne", customerId := "U2",
           note := "Validated from cache", validated := true,
           validationAttempted := true, binderbyteData := some "snap",
           jneNumber := none, assignedLockerId := none }],
        []) := by
  have h := claim3_cache_clone_amended
    [{ resi := "RESIX12345", courierType := "jne", customerId := "U1",
       note := "Validated by Binderbyte", validated := true,
       validationAttempted := true, binderbyteData := some "snap",
       jneNumber := none, assignedLockerId := none }]
    [] (fun _ => .fail) "U2" "RESIX12345" none
    { resi := "RESIX12345", courierType := "jne", customerId := "U1",
      note := "Validated by Binderbyte", validated := true,
      validationAttempted := true, binderbyteData := some "snap",
      jneNumber := none, assignedLockerId := none }
    (by decide) (by decide) (by decide)
  simpa using h

/-! ## Weight-session store lemmas -/

/-- Overwriting an existing key in the session map makes the new entry
the one found. -/
lemma find_map_set (S : List (String × WeightSession)) (id : String)
    (w : WeightSession) (h : (S.find? fun p => p.1 = id).isSome) :
    ((S.map fun p => if p.1 = id then (id, w) else p).find?
      fun p => p.1 = id) = some (id, w) := by
  induction S with
  | nil => simp at h
  | cons p S ih =>
    by_cases hp : p.1 = id
    · simp [List.find?_cons, hp]
    · rw [List.map_cons, if_neg hp,
        List.find?_cons_of_neg _ (by simpa using hp)]
      apply ih
      rw [List.find?_cons_of_neg _ (by simpa using hp)] at h
      exact h

/-- After `weightSessions.set(id, w)` the lookup for `id` yields `w`. -/
lemma find_setSession (S : List (String × WeightSession)) (id : String)
    (w : WeightSession) :
    ((setSession S id w).find? fun p => p.1 = id) = some (id, w) := by
  rw [setSession]
  by_cases h : (S.find? fun p => p.1 = id).isSome
  · rw [if_pos h]
    exact find_map_set S id w h
  · rw [if_neg h, List.find?_append]
    rw [Option.not_isSome_iff_eq_none] at h
    simp [h]

/-- `getSession` after `setSession` on any system built from parts. -/
lemma getSession_mk (lockers : List Locker) (shipments : List Shipment)
    (S : List (String × WeightSession)) (tokCtr clock : Nat) (id : String)
    (w : WeightSession) :
    getSession ⟨lockers, shipments, setSession S id w, tokCtr, clock⟩ id
      = some w := by
  rw [getSession, find_setSession]
  rfl

/-! ## Claim C5 (corrected)

The finalize endpoint computes
`parseFloat(Math.abs(initialWeight - finalWeight).toFixed(3))` — the
absolute first/last difference rounded to 3 decimal places, not the
exact absolute difference the claim states.  For readings whose
difference has more than 3 decimals the two disagree; on the claim's own
example `[5.0, 4.8, 4.6, 4.5, 4.3]` they agree (0.7).  The
InsufficientReadings arm of the claim is correct as stated. -/

/-- C5 counterexample: in a live run whose active session holds the two
readings 0.1234 kg and 0 kg (both accepted by the 0–50 range check),
finalize records 0.123, whereas the claim's formula
`|readings[0] − readings[last]|` gives 0.1234. -/
theorem claim5_weight_rounding_counterexample :
    ((exec (runOps initSystem
      [.assign "L1" "jne" ["R1"] "",
       .depositToken "L1" (randomToken 0) "R1" none,
       .weightStart "L1" "R1",
       .weightReading "L1" (1234/10000),
       .weightReading "L1" 0]) (.weightFinalize "L1")).2 =
        .finalized (123/1000) false) ∧
    |(1234/10000 : ℚ) - 0| ≠ 123/1000 := by
  constructor
  · decide
  · rw [sub_zero, abs_of_nonneg (by norm_num : (0:ℚ) ≤ 1234/10000)]
    norm_num

/-- C5 (amended): for every active weight session, finalize fails with
InsufficientReadings when the session has fewer than 2 readings, and
otherwise (when the shipment exists with no recorded weight) computes
packageWeight as the absolute difference between the first and the last
reading rounded to 3 decimal places, regardless of intermediate
readings; in particular for readings [5.0, 4.8, 4.6, 4.5, 4.3] it
yields packageWeight = 0.7. -/
theorem claim5_differential_weight_amended (s : System) (lockerId : String)
    (sess : WeightSession) (hs : getSession s lockerId = some sess)
    (hact : sess.active = true) :
    (sess.readings.length < 2 →
      exec s (.weightFinalize lockerId) = (s, .insufficientReadings)) ∧
    (∀ sh, 2 ≤ sess.readings.length →
      findShipment s sess.resi = some sh → sh.weight = none →
      (exec s (.weightFinalize lockerId)).2 =
        .finalized (round3 |(sess.readings.headD ⟨0, 0⟩).weight -
          (sess.readings.getLastD ⟨0, 0⟩).weight|) false) := by
  constructor
  · intro hlt
    show execWeightFinalize s lockerId = _
    rw [execWeightFinalize, hs]
    simp [hact, if_pos hlt]
  · intro sh hge hsh hw
    show (execWeightFinalize s lockerId).2 = _
    rw [execWeightFinalize, hs]
    simp only [hact]
    rw [if_neg (by simp), if_neg (by omega)]
    rw [hsh]
    simp [hw]

/-- Witness for the amended C5 on the spec's own example: readings
[5.0, 4.8, 4.6, 4.5, 4.3] finalize to 0.7. -/
theorem claim5_differential_weight_amended_witness :
    (exec (runOps initSystem
      [.assign "L1" "jne" ["R1"] "",
       .depositToken "L1" (randomToken 0) "R1" none,
       .weightStart "L1" "R1",
       .weightReading "L1" 5,
       .weightReading "L1" (48/10),
       .weightReading "L1" (46/10),
       .weightReading "L1" (45/10),
       .weightReading "L1" (43/10)]) (.weightFinalize "L1")).2 =
      .finalized (7/10) false := by
  have h := (claim5_differential_weight_amended (runOps initSystem
      [.assign "L1" "jne" ["R1"] "",
       .depositToken "L1" (randomToken 0) "R1" none,
       .weightStart "L1" "R1",
       .weightReading "L1" 5,
       .weightReading "L1" (48/10),
       .weightReading "L1" (46/10),
       .weightReading "L1" (45/10),
       .weightReading "L1" (43/10)]) "L1"
    ⟨"L1-2", "R1", 2,
      [⟨5, 3⟩, ⟨24/5, 4⟩, ⟨23/5, 5⟩, ⟨9/2, 6⟩, ⟨43/10, 7⟩], true⟩
    (by decide) rfl).2
    ⟨"R1", "L1", "jne", "", "", "", .delivered_to_locker, none, none,
      [⟨"assigned_to_locker", "L1", "R1", 0⟩,
       ⟨"delivered_to_locker", "L1", "R1", 1⟩], some 1, none⟩
    (by decide) (by decide) rfl
  rw [h]
  decide

/-! ## Claim C4 (corrected)

Finalize on a shipment that already has a recorded weight is indeed a
no-op success that leaves the stored weight and weightRecordedAt
untouched — but it also sets `session.active = false`, so the claimed
"calling finalize twice in succession returns success both times" fails:
the second call finds no active session and returns the 404
NoActiveSession error. -/

/-- C4 counterexample: weight 1 kg is recorded at deposit time; a
session with two readings is active.  The first finalize is a no-op
success (alreadyRecorded), the second fails NoActiveSession — not
success both times as claimed. -/
theorem claim4_finalize_twice_counterexample :
    ((exec (runOps initSystem
      [.assign "L1" "jne" ["R1"] "",
       .depositToken "L1" (randomToken 0) "R1" (some 1),
       .weightStart "L1" "R1",
       .weightReading "L1" 2,
       .weightReading "L1" 3]) (.weightFinalize "L1")).2 =
        .finalized 1 true) ∧
    ((exec (exec (runOps initSystem
      [.assign "L1" "jne" ["R1"] "",
       .depositToken "L1" (randomToken 0) "R1" (some 1),
       .weightStart "L1" "R1",
       .weightReading "L1" 2,
       .weightReading "L1" 3]) (.weightFinalize "L1")).1
       (.weightFinalize "L1")).2 = .noActiveSession) ∧
    (∀ w b, Res.noActiveSession ≠ .finalized w b) := by
  refine ⟨by decide, by decide, ?_⟩
  intro w b
  simp

/-- C4 (amended): when the shipment already has a recorded weight,
finalize (on an active session with at least 2 readings) is a no-op
success: it reports the stored weight with `alreadyRecorded`, changes no
shipment — so the stored weight and weightRecordedAt are untouched —
and deactivates the session; because of that deactivation an
immediately repeated finalize (without a fresh session) fails
NoActiveSession rather than succeeding a second time. -/
theorem claim4_finalize_idempotent_amended (s : System) (lockerId : String)
    (sess : WeightSession) (sh : Shipment) (w0 : ℚ)
    (hs : getSession s lockerId = some sess) (hact : sess.active = true)
    (hr : 2 ≤ sess.readings.length)
    (hsh : findShipment s sess.resi = some sh) (hw : sh.weight = some w0) :
    exec s (.weightFinalize lockerId) =
      ({ s with
         sessions := setSession s.sessions lockerId
           { sess with active := false },
         clock := s.clock + 1 }, .finalized w0 true) ∧
    (exec (exec s (.weightFinalize lockerId)).1
      (.weightFinalize lockerId)).2 = .noActiveSession := by
  have h1 : exec s (.weightFinalize lockerId) =
      ({ s with
         sessions := setSession s.sessions lockerId
           { sess with active := false },
         clock := s.clock + 1 }, .finalized w0 true) := by
    show execWeightFinalize s lockerId = _
    rw [execWeightFinalize, hs]
    simp only [hact]
    rw [if_neg (by simp), if_neg (by omega), hsh]
    simp [hw]
  refine ⟨h1, ?_⟩
  rw [h1]
  show (execWeightFinalize _ lockerId).2 = _
  rw [execWeightFinalize, getSession_mk]
  simp

/-- Witness for the amended C4 at the concrete run of the
counterexample trace. -/
theorem claim4_finalize_idempotent_amended_witness :
    ((exec (runOps initSystem
      [.assign "L1" "jne" ["R1"] "",
       .depositToken "L1" (randomToken 0) "R1" (some 1),
       .weightStart "L1" "R1",
       .weightReading "L1" 2,
       .weightReading "L1" 3]) (.weightFinalize "L1")).2 =
        .finalized 1 true) ∧
    ((exec (exec (runOps initSystem
      [.assign "L1" "jne" ["R1"] "",
       .depositToken "L1" (randomToken 0) "R1" (some 1),
       .weightStart "L1" "R1",
       .weightReading "L1" 2,
       .weightReading "L1" 3]) (.weightFinalize "L1")).1
       (.weightFinalize "L1")).2 = .noActiveSession) := by
  have h := claim4_finalize_idempotent_amended (runOps initSystem
      [.assign "L1" "jne" ["R1"] "",
       .depositToken "L1" (randomToken 0) "R1" (some 1),
       .weightStart "L1" "R1",
       .weightReading "L1" 2,
       .weightReading "L1" 3]) "L1"
    ⟨"L1-2", "R1", 2, [⟨2, 3⟩, ⟨3, 4⟩], true⟩
    ⟨"R1", "L1", "jne", "", "", "", .delivered_to_locker, some 1, some 1,
      [⟨"assigned_to_locker", "L1", "R1", 0⟩,
       ⟨"delivered_to_locker", "L1", "R1", 1⟩], some 1, none⟩ 1
    (by decide) rfl (by decide) (by decide) rfl
  exact ⟨by rw [h.1], h.2⟩

/-! ## Store lemmas for the deposit endpoints -/

/-- When no shipment carries a tracking number, none carries it at any
particular locker either. -/
lemma findShipmentAt_none (s : System) (resi lockerId : String)
    (h : findShipment s resi = none) :
    findShipmentAt s resi lockerId = none := by
  rw [findShipment, List.find?_eq_none] at h
  rw [findShipmentAt, List.find?_eq_none]
  intro x hx
  have hne := h x hx
  simp only [decide_eq_true_eq] at hne ⊢
  intro hc
  exact hne hc.1

/-- Saving a locker whose id is the one searched for makes the saved
document the one found. -/
lemma find_saveLocker (L : List Locker) (l2 : Locker) (id : String)
    (hid : l2.lockerId = id)
    (h : (L.find? fun x => x.lockerId = id).isSome) :
    ((saveLocker L l2).find? fun x => x.lockerId = id) = some l2 := by
  induction L with
  | nil => simp at h
  | cons x L ih =>
    rw [saveLocker, List.map_cons]
    by_cases hx : x.lockerId = l2.lockerId
    · rw [if_pos hx]
      rw [List.find?_cons_of_pos _ (by simpa using hid)]
    · rw [if_neg hx]
      have hxid : ¬x.lockerId = id := fun hc => hx (hc.trans hid.symm)
      rw [List.find?_cons_of_neg _ (by simpa using hxid)]
      rw [List.find?_cons_of_neg _ (by simpa using hxid)] at h
      exact ih h

/-- Filtering away an element that is not present changes nothing. -/
lemma filter_ne_of_not_mem (l : List String) (a : String) (h : a ∉ l) :
    (l.filter fun r => r ≠ a) = l := by
  induction l with
  | nil => rfl
  | cons x l ih =>
    simp only [List.mem_cons, not_or] at h
    have hxa : (decide ¬x = a) = true := by
      simp only [decide_eq_true_eq]
      exact fun hc => h.1 hc.symm
    rw [List.filter_cons, if_pos hxa, ih h.2]

/-! ## Claim C6 (corrected)

The one-time-token endpoints (`deposit-resi`, `deposit-token`) behave
exactly as claimed: valid token, shipment exists but assigned
elsewhere → WrongLocker carrying the expected locker id; no shipment at
all → ShipmentNotFound.  But the legacy deposit endpoint
(`POST /api/locker/:lockerId/deposit`) never checks the shipment's
locker assignment: presented with a valid token for locker B and a
tracking number assigned to locker A that drifted into B's pending set,
it deposits successfully instead of failing WrongLocker. -/

/-- C6 counterexample: tracking number R1 is assigned to locker A; a
second agent submission also put R1 into locker B's pending set.  A
legacy deposit at B with B's valid token succeeds — the claim demands
it fail with WrongLocker reporting A. -/
theorem claim6_legacy_wrong_locker_counterexample :
    ((exec (runOps initSystem
      [.assign "A" "jne" ["R1"] "",
       .assign "B" "jne" ["R2"] "",
       .assign "B" "jne" ["R1"] ""])
      (.legacyDeposit "B" (randomToken 1) "R1")).2 = .success) ∧
    ((findShipment (runOps initSystem
      [.assign "A" "jne" ["R1"] "",
       .assign "B" "jne" ["R2"] "",
       .assign "B" "jne" ["R1"] ""]) "R1").map (fun sh => sh.lockerId)
      = some "A") ∧
    ("A" : String) ≠ "B" ∧
    (∀ e sc, Res.success ≠ .wrongLocker e sc) := by
  refine ⟨by decide, by decide, by decide, ?_⟩
  intro e sc
  simp

/-- C6 (amended): for every deposit attempt through the one-time-token
endpoints (deposit-resi and deposit-token) with a valid token, when a
shipment exists for the presented tracking number but none is assigned
to the target locker, the deposit fails with WrongLocker reporting the
expected locker id, and only when no shipment exists at all does it
fail with ShipmentNotFound; the legacy per-locker deposit endpoint
performs no such assignment check. -/
theorem claim6_wrong_locker_amended (s : System)
    (lockerId tok resi : String) (locker : Locker)
    (hin : ¬(lockerId = "" ∨ tok = "" ∨ resi = ""))
    (hl : findLocker s lockerId = some locker)
    (htok : ¬(locker.lockerToken = "" ∨ locker.lockerToken ≠ jsTrim tok)) :
    (∀ sh, findShipmentAt s resi lockerId = none →
      findShipment s resi = some sh →
      sh.lockerId ≠ lockerId ∧
      execDepositResi s lockerId tok resi =
        (s, .wrongLocker sh.lockerId lockerId) ∧
      (∀ w, execDepositToken s lockerId tok resi w =
        (s, .wrongLocker sh.lockerId lockerId))) ∧
    (findShipment s resi = none →
      execDepositResi s lockerId tok resi = (s, .shipmentNotFound) ∧
      (∀ w, execDepositToken s lockerId tok resi w =
        (s, .shipmentNotFound))) := by
  constructor
  · intro sh hA hB
    have hmem : sh ∈ s.shipments := List.mem_of_find?_eq_some hB
    have hresi : sh.resi = resi := by
      have := List.find?_some hB
      simpa using this
    have hne : sh.lockerId ≠ lockerId := by
      rw [findShipmentAt, List.find?_eq_none] at hA
      have := hA sh hmem
      simp only [decide_eq_true_eq] at this
      intro hc
      exact this ⟨hresi, hc⟩
    refine ⟨hne, ?_, ?_⟩
    · rw [execDepositResi, if_neg hin]
      simp only [hl, hA, hB]
      rw [if_neg htok]
    · intro w
      rw [execDepositToken, if_neg hin]
      simp only [hl, hA, hB]
      rw [if_neg htok]
  · intro hB
    have hA := findShipmentAt_none s resi lockerId hB
    constructor
    · rw [execDepositResi, if_neg hin]
      simp only [hl, hA, hB]
      rw [if_neg htok]
    · intro w
      rw [execDepositToken, if_neg hin]
      simp only [hl, hA, hB]
      rw [if_neg htok]

/-- Witness for the amended C6: shipment R1 assigned to locker A,
deposit attempted at locker B with B's valid token → WrongLocker
reporting A. -/
theorem claim6_wrong_locker_amended_witness :
    (execDepositResi (runOps initSystem
      [.assign "A" "jne" ["R1"] "", .assign "B" "jne" ["R2"] ""])
      "B" (randomToken 1) "R1").2 = .wrongLocker "A" "B" := by
  have h := (claim6_wrong_locker_amended (runOps initSystem
      [.assign "A" "jne" ["R1"] "", .assign "B" "jne" ["R2"] ""])
    "B" (randomToken 1) "R1"
    ⟨"B", randomToken 1, none, ["R2"], [], none, true, "unknown"⟩
    (by decide) (by decide) (by decide)).1
    ⟨"R1", "A", "jne", "", "", "", .pending_locker, none, none,
      [⟨"assigned_to_locker", "A", "R1", 0⟩], none, none⟩
    (by decide) (by decide)
  rw [h.2.1]

/-! ## Claim C8 (corrected)

The deposit endpoints do not compare the presented token byte-for-byte:
they compare the stored token against the presented token after
`trim()`, and they additionally reject any comparison when the stored
token is empty/missing (`!locker.lockerToken`).  A presented token with
surrounding whitespace is therefore accepted even though it is not
byte-for-byte equal to the stored token.  The "mismatch fails
TokenInvalid before any state change" half is correct. -/

/-- C8 counterexample: a deposit presenting the stored token wrapped in
whitespace succeeds, although the presented string differs
byte-for-byte from the locker's stored token. -/
theorem claim8_trimmed_token_counterexample :
    ((exec (runOps initSystem [.assign "L1" "jne" ["R1"] ""])
      (.depositResi "L1" (" " ++ randomToken 0 ++ " ") "R1")).2 =
      .success) ∧
    (" " ++ randomToken 0 ++ " " ≠ randomToken 0) := by
  exact ⟨by decide, by decide⟩

/-- C8 (amended): for every deposit attempt through deposit-resi or
deposit-token (locker found, fields present), the presented access
token passes the token gate if and only if the locker's stored token is
non-empty and equals the presented token after trimming surrounding
whitespace; any other combination fails with TokenInvalid before any
state change (the state is returned unchanged). -/
theorem claim8_token_check_amended (s : System)
    (lockerId tok resi : String) (locker : Locker)
    (hin : ¬(lockerId = "" ∨ tok = "" ∨ resi = ""))
    (hl : findLocker s lockerId = some locker) :
    ((execDepositResi s lockerId tok resi).2 ≠ .tokenInvalid ↔
      locker.lockerToken ≠ "" ∧ locker.lockerToken = jsTrim tok) ∧
    ((execDepositToken s lockerId tok resi none).2 ≠ .tokenInvalid ↔
      locker.lockerToken ≠ "" ∧ locker.lockerToken = jsTrim tok) ∧
    ((locker.lockerToken = "" ∨ locker.lockerToken ≠ jsTrim tok) →
      execDepositResi s lockerId tok resi = (s, .tokenInvalid) ∧
      (∀ w, execDepositToken s lockerId tok resi w =
        (s, .tokenInvalid))) := by
  have hng : ¬(locker.lockerToken = "" ∨ locker.lockerToken ≠ jsTrim tok) ↔
      (locker.lockerToken ≠ "" ∧ locker.lockerToken = jsTrim tok) := by
    constructor
    · intro h
      push_neg at h
      exact h
    · intro h hc
      rcases hc with hc | hc
      · exact h.1 hc
      · exact hc h.2
  refine ⟨?_, ?_, ?_⟩
  · by_cases hg : locker.lockerToken = "" ∨ locker.lockerToken ≠ jsTrim tok
    · rw [execDepositResi, if_neg hin]
      simp only [hl]
      rw [if_pos hg]
      exact iff_of_false (by simp) (fun hr => hng.mpr hr hg)
    · rw [execDepositResi, if_neg hin]
      simp only [hl]
      rw [if_neg hg]
      constructor
      · intro _
        exact hng.mp hg
      · intro _
        rcases hA : findShipmentAt s resi lockerId with _ | sh
        · simp only [hA]
          rcases hB : findShipment s resi with _ | sh2 <;> simp [hB]
        · simp only [hA]
          by_cases hst : sh.status ≠ ShipStatus.pending_locker
          · simp [hst]
          · rw [if_neg (by simpa using hst)]
            simp
  · by_cases hg : locker.lockerToken = "" ∨ locker.lockerToken ≠ jsTrim tok
    · rw [execDepositToken, if_neg hin]
      simp only [hl]
      rw [if_pos hg]
      exact iff_of_false (by simp) (fun hr => hng.mpr hr hg)
    · rw [execDepositToken, if_neg hin]
      simp only [hl]
      rw [if_neg hg]
      constructor
      · intro _
        exact hng.mp hg
      · intro _
        rcases hA : findShipmentAt s resi lockerId with _ | sh
        · simp only [hA]
          rcases hB : findShipment s resi with _ | sh2 <;> simp [hB]
        · simp only [hA]
          by_cases hst : sh.status ≠ ShipStatus.pending_locker
          · simp [hst]
          · rw [if_neg (by simpa using hst)]
            simp
  · intro hg
    refine ⟨?_, ?_⟩
    · rw [execDepositResi, if_neg hin]
      simp only [hl]
      rw [if_pos hg]
    · intro w
      rw [execDepositToken, if_neg hin]
      simp only [hl]
      rw [if_pos hg]

/-- Witness for the amended C8: a leading-space token passes the gate,
an unrelated token fails with no state change. -/
theorem claim8_token_check_amended_witness :
    ((execDepositResi (runOps initSystem [.assign "L1" "jne" ["R1"] ""])
      "L1" (" " ++ randomToken 0) "R1").2 ≠ .tokenInvalid) ∧
    (execDepositResi (runOps initSystem [.assign "L1" "jne" ["R1"] ""])
      "L1" "WRONG" "R1" =
      (runOps initSystem [.assign "L1" "jne" ["R1"] ""],
        .tokenInvalid)) := by
  have h := claim8_token_check_amended
    (runOps initSystem [.assign "L1" "jne" ["R1"] ""])
    "L1" (" " ++ randomToken 0) "R1"
    ⟨"L1", randomToken 0, none, ["R1"], [], none, true, "unknown"⟩
    (by decide) (by decide)
  have h2 := claim8_token_check_amended
    (runOps initSystem [.assign "L1" "jne" ["R1"] ""])
    "L1" "WRONG" "R1"
    ⟨"L1", randomToken 0, none, ["R1"], [], none, true, "unknown"⟩
    (by decide) (by decide)
  exact ⟨h.1.mpr ⟨by decide, by decide⟩, (h2.2.2 (by decide)).1⟩

/-! ## Claim C9 (corrected)

The one-time-token deposit (deposit-resi) self-heals exactly as
claimed: an otherwise-valid deposit whose tracking number is absent
from the locker's pending set adds the number (rather than rejecting)
and completes, removing it again as delivered.  But the legacy deposit
endpoint treats the pending set as authoritative and rejects (403) when
the tracking number is absent. -/

/-- C9 counterexample: after R1 was deposited and the locker closed, R1
is no longer in the pending set.  A legacy deposit for R1 with the
current valid token is rejected with the pending-set error; the very
same call succeeds once an agent re-adds R1 to the set — so the missing
membership, which the claim says is self-healed, is the sole cause of
the rejection. -/
theorem claim9_legacy_pending_reject_counterexample :
    ((exec (runOps initSystem
      [.assign "L1" "jne" ["R1"] "",
       .depositResi "L1" (randomToken 0) "R1",
       .logEvent "L1" "locker_closed" "R1"])
      (.legacyDeposit "L1" (randomToken 1) "R1")).2 =
      .resiNotPending []) ∧
    ((exec (runOps initSystem
      [.assign "L1" "jne" ["R1"] "",
       .depositResi "L1" (randomToken 0) "R1",
       .logEvent "L1" "locker_closed" "R1",
       .assign "L1" "jne" ["R1"] ""])
      (.legacyDeposit "L1" (randomToken 1) "R1")).2 = .success) ∧
    (∀ p, Res.resiNotPending p ≠ .success) := by
  refine ⟨by decide, by decide, ?_⟩
  intro p
  simp

/-- C9 (amended): for every otherwise-valid deposit through the
one-time-token deposit-resi endpoint whose tracking number is missing
from the locker's pendingResi set, the deposit succeeds — the number is
added to the set during processing (self-heal) rather than the deposit
being rejected, and removed again as the deposit completes, leaving the
set as it was; the legacy per-locker deposit endpoint instead rejects
such a deposit with a 403 pending-set error. -/
theorem claim9_self_heal_amended (s : System) (lockerId tok resi : String)
    (locker : Locker) (sh : Shipment)
    (hin : ¬(lockerId = "" ∨ tok = "" ∨ resi = ""))
    (hl : findLocker s lockerId = some locker)
    (htok : ¬(locker.lockerToken = "" ∨ locker.lockerToken ≠ jsTrim tok))
    (hsh : findShipmentAt s resi lockerId = some sh)
    (hst : sh.status = .pending_locker)
    (hpend : resi ∉ locker.pendingResi) :
    (execDepositResi s lockerId tok resi).2 = .success ∧
    (findLocker (execDepositResi s lockerId tok resi).1 lockerId).map
      (fun l => l.pendingResi) = some locker.pendingResi := by
  have hlockid : locker.lockerId = lockerId := by
    have := List.find?_some hl
    simpa using this
  have hsome : (s.lockers.find? fun x => x.lockerId = lockerId).isSome := by
    rw [findLocker] at hl
    rw [hl]
    rfl
  have hexec : execDepositResi s lockerId tok resi =
      ({ s with
         lockers := saveLocker s.lockers
           { lockerId := locker.lockerId,
             lockerToken := randomToken s.tokCtr,
             tokenUpdatedAt := some s.clock,
             pendingResi := (locker.pendingResi ++ [resi]).filter
               (fun r => r ≠ resi),
             courierHistory := locker.courierHistory ++
               [⟨sh.courierId, resi, s.clock, locker.lockerToken⟩],
             command := some ⟨"open", resi, "courier_resi", s.clock⟩,
             isActive := locker.isActive, status := locker.status },
         shipments := saveShipment s.shipments
           { sh with
             status := .delivered_to_locker,
             deliveredToLockerAt := some s.clock,
             logs := sh.logs ++
               [⟨"delivered_to_locker", lockerId, resi, s.clock⟩] },
         tokCtr := s.tokCtr + 1, clock := s.clock + 1 }, .success) := by
    rw [execDepositResi, if_neg hin]
    simp only [hl, hsh]
    rw [if_neg htok, if_neg (by simp [hst]), if_neg (by simpa using hpend)]
  refine ⟨by rw [hexec], ?_⟩
  rw [hexec, findLocker]
  rw [find_saveLocker s.lockers
    { lockerId := locker.lockerId, lockerToken := randomToken s.tokCtr,
      tokenUpdatedAt := some s.clock,
      pendingResi := (locker.pendingResi ++ [resi]).filter
        (fun r => r ≠ resi),
      courierHistory := locker.courierHistory ++
        [⟨sh.courierId, resi, s.clock, locker.lockerToken⟩],
      command := some ⟨"open", resi, "courier_resi", s.clock⟩,
      isActive := locker.isActive, status := locker.status }
    lockerId hlockid hsome]
  show some ((locker.pendingResi ++ [resi]).filter (fun r => r ≠ resi))
    = some locker.pendingResi
  congr 1
  rw [List.filter_append, filter_ne_of_not_mem _ _ hpend]
  simp

/-- Witness for the amended C9: a locker whose pending set is empty
while its pending shipment R1 exists; the deposit succeeds and the set
ends as it began. -/
theorem claim9_self_heal_amended_witness :
    (execDepositResi
      ⟨[⟨"L1", randomToken 0, none, [], [], none, true, "unknown"⟩],
       [⟨"R1", "L1", "jne", "", "", "", .pending_locker, none, none, [],
         none, none⟩], [], 1, 5⟩
      "L1" (randomToken 0) "R1").2 = .success ∧
    (findLocker (execDepositResi
      ⟨[⟨"L1", randomToken 0, none, [], [], none, true, "unknown"⟩],
       [⟨"R1", "L1", "jne", "", "", "", .pending_locker, none, none, [],
         none, none⟩], [], 1, 5⟩
      "L1" (randomToken 0) "R1").1 "L1").map (fun l => l.pendingResi) =
      some [] := by
  exact claim9_self_heal_amended _ "L1" (randomToken 0) "R1"
    ⟨"L1", randomToken 0, none, [], [], none, true, "unknown"⟩
    ⟨"R1", "L1", "jne", "", "", "", .pending_locker, none, none, [],
      none, none⟩
    (by decide) (by decide) (by decide) (by decide) (by decide) (by decide)


lemma find_saveShipment_other (L : List Shipment) (sh1 : Shipment)
    (resi : String) (h : resi ≠ sh1.resi) :
    ((saveShipment L sh1).find? fun x => x.resi = resi) =
      L.find? fun x => x.resi = resi := by
  induction L with
  | nil => rfl
  | cons x L ih =>
    rw [saveShipment, List.map_cons]
    by_cases hx : x.resi = sh1.resi
    · have h1 : ¬sh1.resi = resi := fun hc => h hc.symm
      have h2 : ¬x.resi = resi := fun hc => h (hx.symm.trans hc).symm
      rw [if_pos hx, List.find?_cons_of_neg _ (by simpa using h1),
        List.find?_cons_of_neg _ (by simpa using h2)]
      exact ih
    · rw [if_neg hx]
      by_cases hxr : x.resi = resi
      · rw [List.find?_cons_of_pos _ (by simpa using hxr),
          List.find?_cons_of_pos _ (by simpa using hxr)]
      · rw [List.find?_cons_of_neg _ (by simpa using hxr),
          List.find?_cons_of_neg _ (by simpa using hxr)]
        exact ih

lemma find_saveShipment_self (L : List Shipment) (sh1 : Shipment)
    (h : (L.find? fun x => x.resi = sh1.resi).isSome) :
    ((saveShipment L sh1).find? fun x => x.resi = sh1.resi) = some sh1 := by
  induction L with
  | nil => simp at h
  | cons x L ih =>
    rw [saveShipment, List.map_cons]
    by_cases hx : x.resi = sh1.resi
    · rw [if_pos hx, List.find?_cons_of_pos _ (by simp)]
    · rw [if_neg hx, List.find?_cons_of_neg _ (by simpa using hx)]
      rw [List.find?_cons_of_neg _ (by simpa using hx)] at h
      exact ih h

lemma assignStep_shipments_append (lockerId courierType plate : String)
    (clock : Nat) :
    ∀ (rl : List String) (lk : Locker) (shs : List Shipment),
      ∃ t, (rl.foldl (assignStep lockerId courierType plate clock)
        (lk, shs)).2 = shs ++ t := by
  intro rl
  induction rl with
  | nil => intro lk shs; exact ⟨[], by simp⟩
  | cons r rl ih =>
    intro lk shs
    rw [List.foldl_cons]
    rcases hstep : assignStep lockerId courierType plate clock (lk, shs) r
      with ⟨lk1, shs1⟩
    have hshs1 : shs1 = shs ∨ ∃ a, shs1 = shs ++ [a] := by
      rw [assignStep] at hstep
      rcases hf : shs.find? (fun sh => sh.resi = jsTrim r) with _ | sh0
      · simp only [hf] at hstep
        right
        exact ⟨_, (congrArg Prod.snd hstep).symm⟩
      · simp only [hf] at hstep
        split at hstep
        · left
          exact (congrArg Prod.snd hstep).symm
        · left
          exact (congrArg Prod.snd hstep).symm
    obtain ⟨t, ht⟩ := ih lk1 shs1
    rcases hshs1 with hcase | ⟨a, hcase⟩
    · subst hcase
      exact ⟨t, ht⟩
    · subst hcase
      rw [List.append_assoc] at ht
      exact ⟨[a] ++ t, ht⟩

lemma shipMono_of_shipments_eq (s sNew : System)
    (h : sNew.shipments = s.shipments) : shipMono s sNew := by
  intro resi sh hf
  refine ⟨sh, ?_, le_refl _⟩
  rw [findShipment, h]
  exact hf

lemma shipMono_refl (s : System) : shipMono s s :=
  shipMono_of_shipments_eq s s rfl

lemma getLocker_shipments (s : System) (id : String) :
    (getLocker s id).2.shipments = s.shipments := by
  rw [getLocker]
  rcases findLocker s id with _ | l <;> rfl

lemma shipMono_execAssign (s : System) (a b : String) (c : List String)
    (d : String) : shipMono s (execAssign s a b c d).1 := by
  rw [execAssign]
  split
  · exact shipMono_refl s
  · intro resi sh hf
    obtain ⟨t, ht⟩ := assignStep_shipments_append a b d
      (getLocker s a).2.clock c (getLocker s a).1 (getLocker s a).2.shipments
    refine ⟨sh, ?_, le_refl _⟩
    show ((c.foldl (assignStep a b d (getLocker s a).2.clock)
      ((getLocker s a).1, (getLocker s a).2.shipments)).2.find?
        fun x => x.resi = resi) = some sh
    rw [ht, List.find?_append, getLocker_shipments]
    rw [findShipment] at hf
    simp [hf]

lemma findShipmentAt_mem (s : System) (r a : String) (shA : Shipment)
    (hA : findShipmentAt s r a = some shA) :
    shA ∈ s.shipments ∧ shA.resi = r := by
  refine ⟨List.mem_of_find?_eq_some hA, ?_⟩
  have := List.find?_some hA
  simp only [decide_eq_true_eq] at this
  exact this.1

lemma findShipment_mem (s : System) (r : String) (sh : Shipment)
    (hf : findShipment s r = some sh) :
    sh ∈ s.shipments ∧ sh.resi = r := by
  refine ⟨List.mem_of_find?_eq_some hf, ?_⟩
  have := List.find?_some hf
  simpa using this

lemma shipMono_save_of_pending (s : System)
    (hnd : (s.shipments.map fun x => x.resi).Nodup)
    (sh1 shA : Shipment) (hmemA : shA ∈ s.shipments)
    (hkey : sh1.resi = shA.resi) (hstA : shA.status = .pending_locker)
    (L : List Locker) (S : List (String × WeightSession)) (n c : Nat) :
    shipMono s ⟨L, saveShipment s.shipments sh1, S, n, c⟩ := by
  intro resi sh hf
  obtain ⟨hmem, hresi⟩ := findShipment_mem s resi sh hf
  by_cases hr : resi = shA.resi
  · have hsame : sh = shA :=
      List.inj_on_of_nodup_map hnd hmem hmemA (by rw [hresi, hr])
    refine ⟨sh1, ?_, ?_⟩
    · show ((saveShipment s.shipments sh1).find? fun x => x.resi = resi)
        = some sh1
      rw [hr, ← hkey]
      refine find_saveShipment_self s.shipments sh1 ?_
      have hx : (s.shipments.find? fun x => x.resi = resi).isSome := by
        rw [findShipment] at hf
        rw [hf]
        rfl
      rw [hkey, ← hr]
      exact hx
    · rw [hsame, hstA]
      cases hs1 : sh1.status <;> simp [statusRank]
  · refine ⟨sh, ?_, le_refl _⟩
    show ((saveShipment s.shipments sh1).find? fun x => x.resi = resi)
      = some sh
    rw [find_saveShipment_other _ _ _
      (by simpa using fun hc => hr (hc.trans hkey))]
    exact hf

lemma shipMono_execDepositResi (s : System)
    (hnd : (s.shipments.map fun x => x.resi).Nodup) (a tok r : String) :
    shipMono s (execDepositResi s a tok r).1 := by
  rw [execDepositResi]
  by_cases h1 : (a = "" ∨ tok = "" ∨ r = "")
  · rw [if_pos h1]
    exact shipMono_refl s
  rw [if_neg h1]
  rcases hL : findLocker s a with _ | locker
  · exact shipMono_refl s
  dsimp only
  by_cases h2 : (locker.lockerToken = "" ∨ locker.lockerToken ≠ jsTrim tok)
  · rw [if_pos h2]
    exact shipMono_refl s
  rw [if_neg h2]
  rcases hA : findShipmentAt s r a with _ | shA
  · rcases hB : findShipment s r with _ | shB <;> dsimp only <;>
      exact shipMono_refl s
  dsimp only
  by_cases h3 : shA.status ≠ ShipStatus.pending_locker
  · rw [if_pos h3]
    exact shipMono_refl s
  rw [if_neg h3]
  push_neg at h3
  obtain ⟨hmemA, hresiA⟩ := findShipmentAt_mem s r a shA hA
  apply shipMono_save_of_pending s hnd _ shA hmemA ?_ h3
  rfl

lemma shipMono_execDepositToken (s : System)
    (hnd : (s.shipments.map fun x => x.resi).Nodup) (a tok r : String)
    (w : Option ℚ) :
    shipMono s (execDepositToken s a tok r w).1 := by
  rw [execDepositToken]
  by_cases h1 : (a = "" ∨ tok = "" ∨ r = "")
  · rw [if_pos h1]
    exact shipMono_refl s
  rw [if_neg h1]
  rcases hL : findLocker s a with _ | locker
  · exact shipMono_refl s
  dsimp only
  by_cases h2 : (locker.lockerToken = "" ∨ locker.lockerToken ≠ jsTrim tok)
  · rw [if_pos h2]
    exact shipMono_refl s
  rw [if_neg h2]
  rcases hA : findShipmentAt s r a with _ | shA
  · rcases hB : findShipment s r with _ | shB <;> dsimp only <;>
      exact shipMono_refl s
  dsimp only
  by_cases h3 : shA.status ≠ ShipStatus.pending_locker
  · rw [if_pos h3]
    exact shipMono_refl s
  rw [if_neg h3]
  push_neg at h3
  obtain ⟨hmemA, hresiA⟩ := findShipmentAt_mem s r a shA hA
  apply shipMono_save_of_pending s hnd _ shA hmemA ?_ h3
  rcases w with _ | w0
  · rfl
  · by_cases hw : 0 < w0 <;> simp [hw]

lemma shipMono_execDepositPlate (s : System)
    (hnd : (s.shipments.map fun x => x.resi).Nodup) (tok plate : String) :
    shipMono s (execDepositPlate s tok plate).1 := by
  rw [execDepositPlate]
  by_cases h1 : (tok = "" ∨ plate = "")
  · rw [if_pos h1]
    exact shipMono_refl s
  rw [if_neg h1]
  dsimp only
  rcases hL : s.lockers.find? (fun l => l.lockerToken = jsTrim tok)
    with _ | locker
  · rw [hL]
    exact shipMono_refl s
  rw [hL]
  dsimp only
  rcases hA : s.shipments.find? (fun sh =>
      sh.courierPlate = toUpperStr (jsTrim plate) ∧
        sh.status = ShipStatus.pending_locker ∧
        sh.lockerId = locker.lockerId) with _ | shA
  · rw [hA]
    exact shipMono_refl s
  rw [hA]
  dsimp only
  have hmemA : shA ∈ s.shipments := List.mem_of_find?_eq_some hA
  have hstA : shA.status = .pending_locker := by
    have := List.find?_some hA
    simp only [decide_eq_true_eq] at this
    exact this.2.1
  apply shipMono_save_of_pending s hnd _ shA hmemA ?_ hstA
  rfl

lemma logTransition_resi (ev a r : String) (c : Nat) (sh : Shipment) :
    (logTransition ev a r c sh).resi = sh.resi := by
  rw [logTransition]
  by_cases h1 : ev = "opened_by_customer" <;>
    by_cases h2 : (ev = "locker_closed" ∧ sh.status = .delivered_to_locker) <;>
    simp [h1, h2]

lemma logTransition_rank (ev a r : String) (c : Nat) (sh : Shipment) :
    statusRank sh.status ≤ statusRank (logTransition ev a r c sh).status := by
  rw [logTransition]
  by_cases h1 : ev = "opened_by_customer"
  · simp only [h1, if_true]
    cases sh.status <;> simp [statusRank]
  · rw [if_neg h1]
    by_cases h2 : (ev = "locker_closed" ∧ sh.status = .delivered_to_locker)
    · rw [if_pos h2, h2.2]
      simp [statusRank]
    · rw [if_neg h2]

lemma shipMono_execLog (s : System) (a ev r : String) :
    shipMono s (execLog s a ev r).1 := by
  rw [execLog]
  rcases hB : (if r ≠ "" then findShipment s r else none) with _ | sh0
  · exact shipMono_of_shipments_eq s _ rfl
  dsimp only
  have hfr : findShipment s r = some sh0 := by
    by_cases hrne : r ≠ ""
    · rwa [if_pos hrne] at hB
    · rw [if_neg hrne] at hB
      cases hB
  have hresi0 : sh0.resi = r := (findShipment_mem s r sh0 hfr).2
  intro resi sh hf
  by_cases hr : resi = r
  · subst hr
    have hsame : sh = sh0 := by
      rw [hf] at hfr
      exact (Option.some.injEq _ _).mp hfr
    refine ⟨logTransition ev a resi s.clock sh0, ?_, ?_⟩
    · show ((saveShipment s.shipments (logTransition ev a resi s.clock sh0)).find?
        fun x => x.resi = resi) = some (logTransition ev a resi s.clock sh0)
      have hkey : (logTransition ev a resi s.clock sh0).resi = resi := by
        rw [logTransition_resi, hresi0]
      have hx : (s.shipments.find?
          fun x => x.resi = (logTransition ev a resi s.clock sh0).resi).isSome := by
        rw [hkey]
        rw [findShipment] at hf
        rw [hf]
        rfl
      have hfind := find_saveShipment_self s.shipments _ hx
      rw [hkey] at hfind
      exact hfind
    · rw [hsame]
      exact logTransition_rank ev a resi s.clock sh0
  · refine ⟨sh, ?_, le_refl _⟩
    show ((saveShipment s.shipments _).find? fun x => x.resi = resi)
      = some sh
    rw [find_saveShipment_other _ _ _
      (by rw [logTransition_resi, hresi0]; simpa using hr)]
    exact hf

lemma shipMono_execWeightStart (s : System) (a r : String) :
    shipMono s (execWeightStart s a r).1 := by
  rw [execWeightStart]
  by_cases h1 : r = ""
  · rw [if_pos h1]
    exact shipMono_refl s
  · rw [if_neg h1]
    exact shipMono_of_shipments_eq s _ rfl

lemma shipMono_execWeightReading (s : System) (a : String) (w : ℚ) :
    shipMono s (execWeightReading s a w).1 := by
  rw [execWeightReading]
  by_cases h1 : (w < 0 ∨ 50 < w)
  · rw [if_pos h1]
    exact shipMono_refl s
  rw [if_neg h1]
  rcases hS : getSession s a with _ | sess
  · exact shipMono_refl s
  dsimp only
  by_cases h2 : sess.active = false
  · rw [if_pos h2]
    exact shipMono_refl s
  · rw [if_neg h2]
    exact shipMono_of_shipments_eq s _ rfl

lemma shipMono_execWeightFinalize (s : System) (a : String) :
    shipMono s (execWeightFinalize s a).1 := by
  rw [execWeightFinalize]
  rcases hS : getSession s a with _ | sess
  · exact shipMono_refl s
  dsimp only
  by_cases h2 : sess.active = false
  · rw [if_pos h2]
    exact shipMono_refl s
  rw [if_neg h2]
  by_cases h3 : sess.readings.length < 2
  · rw [if_pos h3]
    exact shipMono_refl s
  rw [if_neg h3]
  rcases hB : findShipment s sess.resi with _ | sh0
  · exact shipMono_of_shipments_eq s _ rfl
  dsimp only
  rcases hW : sh0.weight with _ | w0
  · have hresi0 : sh0.resi = sess.resi := (findShipment_mem s _ sh0 hB).2
    intro resi sh hf
    by_cases hr : resi = sess.resi
    · subst hr
      have hsame : sh = sh0 := by
        rw [hf] at hB
        exact (Option.some.injEq _ _).mp hB
      refine ⟨?_, ?_, ?_⟩
      case _ => exact
        { sh0 with
          weight := some (round3 |(sess.readings.headD ⟨0, 0⟩).weight -
            (sess.readings.getLastD ⟨0, 0⟩).weight|),
          weightRecordedAt := some s.clock,
          logs := sh0.logs ++
            [⟨"weight_recorded_differential", a, sh0.resi, s.clock⟩] }
      · show ((saveShipment s.shipments _).find? fun x => x.resi = sess.resi)
          = some _
        rw [← hresi0]
        refine find_saveShipment_self s.shipments
          { sh0 with
            weight := some (round3 |(sess.readings.headD ⟨0, 0⟩).weight -
              (sess.readings.getLastD ⟨0, 0⟩).weight|),
            weightRecordedAt := some s.clock,
            logs := sh0.logs ++
              [⟨"weight_recorded_differential", a, sh0.resi, s.clock⟩] } ?_
        show (s.shipments.find? fun x => x.resi = sh0.resi).isSome
        rw [hresi0]
        rw [findShipment] at hf
        rw [hf]
        rfl
      · rw [hsame]
    · refine ⟨sh, ?_, le_refl _⟩
      show ((saveShipment s.shipments _).find? fun x => x.resi = resi)
        = some sh
      rw [find_saveShipment_other _ _ _
        (by show resi ≠ sh0.resi; rw [hresi0]; exact hr)]
      exact hf
  · exact shipMono_of_shipments_eq s _ rfl

/-- C7 (counterexample): the legacy deposit endpoint moves a shipment
whose status is ready_for_pickup back to delivered_to_locker, so the
claimed monotonicity over all operations fails. -/
theorem claim7_legacy_revert_counterexample :
    ((findShipment (runOps initSystem
      [.assign "L1" "jne" ["R1"] "",
       .depositResi "L1" (randomToken 0) "R1",
       .logEvent "L1" "locker_closed" "R1",
       .assign "L1" "jne" ["R1"] ""]) "R1").map (fun sh => sh.status)
      = some .ready_for_pickup) ∧
    ((exec (runOps initSystem
      [.assign "L1" "jne" ["R1"] "",
       .depositResi "L1" (randomToken 0) "R1",
       .logEvent "L1" "locker_closed" "R1",
       .assign "L1" "jne" ["R1"] ""])
      (.legacyDeposit "L1" (randomToken 1) "R1")).2 = .success) ∧
    ((findShipment (exec (runOps initSystem
      [.assign "L1" "jne" ["R1"] "",
       .depositResi "L1" (randomToken 0) "R1",
       .logEvent "L1" "locker_closed" "R1",
       .assign "L1" "jne" ["R1"] ""])
      (.legacyDeposit "L1" (randomToken 1) "R1")).1 "R1").map
        (fun sh => sh.status) = some .delivered_to_locker) ∧
    statusRank .delivered_to_locker < statusRank .ready_for_pickup := by
  refine ⟨by decide, by decide, by decide, by decide⟩

/-- C7 (amended): every operation except the legacy deposit endpoint
preserves or advances each shipment's status along the lifecycle order
awaiting_deposit < delivered_to_locker < ready_for_pickup <
delivered_to_customer, and never drops a shipment, provided the stored
tracking numbers are pairwise distinct. -/
theorem claim7_status_monotonic_amended (s : System) (op : Op)
    (hnd : (s.shipments.map fun x => x.resi).Nodup)
    (hleg : isLegacy op = false) :
    shipMono s (exec s op).1 := by
  cases op with
  | assign a b c d => exact shipMono_execAssign s a b c d
  | depositResi a b c => exact shipMono_execDepositResi s hnd a b c
  | depositToken a b c w => exact shipMono_execDepositToken s hnd a b c w
  | legacyDeposit a b c => exact Bool.noConfusion hleg
  | depositPlate a b => exact shipMono_execDepositPlate s hnd a b
  | logEvent a b c => exact shipMono_execLog s a b c
  | weightStart a b => exact shipMono_execWeightStart s a b
  | weightReading a w => exact shipMono_execWeightReading s a w
  | weightFinalize a => exact shipMono_execWeightFinalize s a

/-- Witness for claim7_status_monotonic_amended: a concrete state with
one assigned shipment, advanced by a deposit-resi operation. -/
theorem claim7_status_monotonic_amended_witness :
    (((runOps initSystem [.assign "L1" "jne" ["R1"] ""]).shipments.map
      fun x => x.resi).Nodup) ∧
    isLegacy (.depositResi "L1" (randomToken 0) "R1") = false ∧
    shipMono (runOps initSystem [.assign "L1" "jne" ["R1"] ""])
      (exec (runOps initSystem [.assign "L1" "jne" ["R1"] ""])
        (.depositResi "L1" (randomToken 0) "R1")).1 :=
  ⟨by decide, by decide,
    claim7_status_monotonic_amended _ _ (by decide) (by decide)⟩


lemma randomToken_inj {m n : Nat} (h : randomToken m = randomToken n) :
    m = n := by
  have hl : (randomToken m).data.length = (randomToken n).data.length := by
    rw [h]
  have hm : (randomToken m).data = 'L' :: 'K' :: '-' ::
      List.replicate (m+1) 'x' := rfl
  have hn : (randomToken n).data = 'L' :: 'K' :: '-' ::
      List.replicate (n+1) 'x' := rfl
  rw [hm, hn] at hl
  simp [List.length_replicate] at hl
  omega

lemma jsTrim_randomToken (n : Nat) : jsTrim (randomToken n) = randomToken n := by
  have hws : isWs 'L' = false ∧ isWs 'x' = false := by decide
  have hm : (randomToken n).data
      = 'L' :: 'K' :: '-' :: (List.replicate n 'x' ++ ['x']) := by
    show 'L' :: 'K' :: '-' :: List.replicate (n+1) 'x' = _
    rw [List.replicate_succ']
  apply String.ext
  show ((((randomToken n).data.dropWhile isWs).reverse.dropWhile
    isWs).reverse) = (randomToken n).data
  rw [hm]
  simp [List.dropWhile_cons, hws.1, hws.2, List.reverse_append,
    List.reverse_replicate, isWs]

lemma mem_liveToks (s : System) (l : Locker) (h : l ∈ s.lockers) :
    l.lockerToken ∈ liveToks s :=
  List.mem_map_of_mem _ h

lemma saveLocker_mem_of_ne (L : List Locker) (l2 l : Locker)
    (hl : l ∈ L) (hne : l.lockerId ≠ l2.lockerId) : l ∈ saveLocker L l2 := by
  rw [saveLocker]
  have h := List.mem_map_of_mem
    (fun x => if x.lockerId = l2.lockerId then l2 else x) hl
  simpa only [if_neg hne] using h

lemma mem_saveLocker (L : List Locker) (l2 x : Locker)
    (hx : x ∈ saveLocker L l2) : x = l2 ∨ x ∈ L := by
  rw [saveLocker] at hx
  rcases List.mem_map.mp hx with ⟨y, hy, hxy⟩
  by_cases h : y.lockerId = l2.lockerId
  · rw [if_pos h] at hxy
    exact Or.inl hxy.symm
  · rw [if_neg h] at hxy
    exact Or.inr (hxy ▸ hy)

lemma ids_saveLocker (L : List Locker) (l2 : Locker) :
    ((saveLocker L l2).map fun l => l.lockerId)
      = L.map fun l => l.lockerId := by
  rw [saveLocker, List.map_map]
  apply List.map_congr_left
  intro x _
  by_cases h : x.lockerId = l2.lockerId
  · simp [Function.comp, h]
  · simp [Function.comp, h]

lemma toks_saveLocker (L : List Locker) (l2 : Locker) :
    ((saveLocker L l2).map fun l => l.lockerToken)
      = L.map fun x =>
          if x.lockerId = l2.lockerId then l2.lockerToken
          else x.lockerToken := by
  rw [saveLocker, List.map_map]
  apply List.map_congr_left
  intro x _
  by_cases h : x.lockerId = l2.lockerId
  · simp [Function.comp, h]
  · simp [Function.comp, h]

lemma nodup_tokens_update (L : List Locker) (l2 : Locker)
    (hids : (L.map fun l => l.lockerId).Nodup)
    (htoks : (L.map fun l => l.lockerToken).Nodup)
    (hfresh : l2.lockerToken ∉ L.map fun l => l.lockerToken) :
    (L.map fun x =>
      if x.lockerId = l2.lockerId then l2.lockerToken
      else x.lockerToken).Nodup := by
  induction L with
  | nil => simp
  | cons x L ih =>
    rw [List.map_cons, List.nodup_cons] at hids htoks
    rw [List.map_cons] at hfresh
    have hfr1 : l2.lockerToken ≠ x.lockerToken := fun hc =>
      hfresh (by rw [hc]; exact List.mem_cons_self _ _)
    have hfr2 : l2.lockerToken ∉ L.map fun l => l.lockerToken := fun hc =>
      hfresh (List.mem_cons_of_mem _ hc)
    rw [List.map_cons, List.nodup_cons]
    refine ⟨?_, ih hids.2 htoks.2 hfr2⟩
    intro hmem
    rcases List.mem_map.mp hmem with ⟨z, hz, hzt⟩
    by_cases hcz : z.lockerId = l2.lockerId
    · rw [if_pos hcz] at hzt
      by_cases hcx : x.lockerId = l2.lockerId
      · refine hids.1 ?_
        have hzin : z.lockerId ∈ L.map fun l => l.lockerId :=
          List.mem_map_of_mem _ hz
        rwa [hcz, ← hcx] at hzin
      · rw [if_neg hcx] at hzt
        exact hfr1 hzt
    · rw [if_neg hcz] at hzt
      by_cases hcx : x.lockerId = l2.lockerId
      · rw [if_pos hcx] at hzt
        exact hfr2 (hzt ▸ List.mem_map_of_mem _ hz)
      · rw [if_neg hcx] at hzt
        exact htoks.1 (hzt ▸ List.mem_map_of_mem _ hz)

lemma find_by_id_of_mem (L : List Locker) (l : Locker)
    (hids : (L.map fun x => x.lockerId).Nodup) (hl : l ∈ L) :
    (L.find? fun x => x.lockerId = l.lockerId) = some l := by
  induction L with
  | nil => cases hl
  | cons x L ih =>
    rw [List.map_cons, List.nodup_cons] at hids
    rcases List.mem_cons.mp hl with h | h
    · subst h
      exact List.find?_cons_of_pos _ (by simp)
    · have hxne : ¬ x.lockerId = l.lockerId := fun hc =>
        hids.1 (hc ▸ List.mem_map_of_mem _ h)
      rw [List.find?_cons_of_neg _ (by simpa using hxne)]
      exact ih hids.2 h

lemma TokInv_save (s : System) (locker l2 : Locker)
    (Sh : List Shipment) (Se : List (String × WeightSession)) (n2 c : Nat)
    (hInv : TokInv s)
    (hfind : findLocker s l2.lockerId = some locker)
    (hn : s.tokCtr ≤ n2)
    (htok : l2.lockerToken = locker.lockerToken ∨
      ∃ m, s.tokCtr ≤ m ∧ m < n2 ∧ l2.lockerToken = randomToken m) :
    TokInv ⟨saveLocker s.lockers l2, Sh, Se, n2, c⟩ := by
  obtain ⟨hids, htoks, hbnd⟩ := hInv
  rw [findLocker] at hfind
  have hmem : locker ∈ s.lockers := List.mem_of_find?_eq_some hfind
  have hid : locker.lockerId = l2.lockerId := by
    have h := List.find?_some hfind
    simpa using h
  refine ⟨?_, ?_, ?_⟩
  · show ((saveLocker s.lockers l2).map fun l => l.lockerId).Nodup
    rw [ids_saveLocker]
    exact hids
  · show ((saveLocker s.lockers l2).map fun l => l.lockerToken).Nodup
    rw [toks_saveLocker]
    rcases htok with h | ⟨m, hm1, hm2, hm3⟩
    · have heq : (s.lockers.map fun x =>
          if x.lockerId = l2.lockerId then l2.lockerToken else x.lockerToken)
          = s.lockers.map fun x => x.lockerToken := by
        apply List.map_congr_left
        intro z hz
        by_cases hcz : z.lockerId = l2.lockerId
        · rw [if_pos hcz]
          have hzeq : z = locker :=
            List.inj_on_of_nodup_map hids hz hmem (by rw [hcz, hid])
          rw [h, hzeq]
        · rw [if_neg hcz]
      rw [heq]
      exact htoks
    · apply nodup_tokens_update s.lockers l2 hids htoks
      rw [hm3]
      intro hcmem
      rcases List.mem_map.mp hcmem with ⟨z, hz, hzt⟩
      obtain ⟨k, hk, hkt⟩ := hbnd z hz
      rw [hkt] at hzt
      have hkm := randomToken_inj hzt
      omega
  · intro l hlmem
    rcases mem_saveLocker _ _ _ hlmem with h | h
    · subst h
      rcases htok with h2 | ⟨m, hm1, hm2, hm3⟩
      · obtain ⟨k, hk, hkt⟩ := hbnd locker hmem
        exact ⟨k, lt_of_lt_of_le hk hn, by rw [h2, hkt]⟩
      · exact ⟨m, hm2, hm3⟩
    · obtain ⟨k, hk, hkt⟩ := hbnd l h
      exact ⟨k, lt_of_lt_of_le hk hn, hkt⟩

lemma TokInv_append (s : System) (id : String)
    (Sh : List Shipment) (Se : List (String × WeightSession)) (c : Nat)
    (hnone : findLocker s id = none) (hInv : TokInv s) :
    TokInv ⟨s.lockers ++
      [⟨id, randomToken s.tokCtr, none, [], [], none, true, "unknown"⟩],
      Sh, Se, s.tokCtr + 1, c⟩ := by
  obtain ⟨hids, htoks, hbnd⟩ := hInv
  rw [findLocker] at hnone
  have hnot := List.find?_eq_none.mp hnone
  have hidnot : id ∉ lockerIds s := by
    intro hmem
    rcases List.mem_map.mp hmem with ⟨z, hz, hzt⟩
    exact hnot z hz (by simpa using hzt)
  have htoknot : randomToken s.tokCtr ∉ liveToks s := by
    intro hmem
    rcases List.mem_map.mp hmem with ⟨z, hz, hzt⟩
    obtain ⟨k, hk, hkt⟩ := hbnd z hz
    rw [hkt] at hzt
    have hkm := randomToken_inj hzt
    omega
  refine ⟨?_, ?_, ?_⟩
  · show ((s.lockers ++
      [({ lockerId := id, lockerToken := randomToken s.tokCtr,
          tokenUpdatedAt := none, pendingResi := [], courierHistory := [],
          command := none, isActive := true,
          status := "unknown" } : Locker)]).map
        (fun l => l.lockerId)).Nodup
    rw [List.map_append]
    refine List.Nodup.append hids (by simp) ?_
    intro a ha1 ha2
    simp at ha2
    rw [ha2] at ha1
    exact hidnot ha1
  · show ((s.lockers ++
      [({ lockerId := id, lockerToken := randomToken s.tokCtr,
          tokenUpdatedAt := none, pendingResi := [], courierHistory := [],
          command := none, isActive := true,
          status := "unknown" } : Locker)]).map
        (fun l => l.lockerToken)).Nodup
    rw [List.map_append]
    refine List.Nodup.append htoks (by simp) ?_
    intro a ha1 ha2
    simp at ha2
    rw [ha2] at ha1
    exact htoknot ha1
  · intro l hlmem
    rcases List.mem_append.mp hlmem with h | h
    · obtain ⟨k, hk, hkt⟩ := hbnd l h
      exact ⟨k, Nat.lt_succ_of_lt hk, hkt⟩
    · simp at h
      rw [h]
      exact ⟨s.tokCtr, Nat.lt_succ_self _, rfl⟩

lemma tokStep_of_eq (s s2 : System) (hInv : TokInv s)
    (hl : s2.lockers = s.lockers) (hn : s2.tokCtr = s.tokCtr) :
    TokStep s s2 := by
  obtain ⟨hids, htoks, hbnd⟩ := hInv
  refine ⟨⟨?_, ?_, ?_⟩, le_of_eq hn.symm, ?_⟩
  · show (s2.lockers.map fun l => l.lockerId).Nodup
    rw [hl]
    exact hids
  · show (s2.lockers.map fun l => l.lockerToken).Nodup
    rw [hl]
    exact htoks
  · intro l hmem
    rw [hl] at hmem
    rw [hn]
    exact hbnd l hmem
  · intro t hmem
    refine Or.inl ?_
    show t ∈ s.lockers.map fun l => l.lockerToken
    rw [← hl]
    exact hmem

lemma tokStep_refl (s : System) (hInv : TokInv s) : TokStep s s :=
  tokStep_of_eq s s hInv rfl rfl

lemma tokStep_save (s : System) (locker l2 : Locker)
    (Sh : List Shipment) (Se : List (String × WeightSession)) (n2 c : Nat)
    (hInv : TokInv s)
    (hfind : findLocker s l2.lockerId = some locker)
    (hn : s.tokCtr ≤ n2)
    (htok : l2.lockerToken = locker.lockerToken ∨
      ∃ m, s.tokCtr ≤ m ∧ m < n2 ∧ l2.lockerToken = randomToken m) :
    TokStep s ⟨saveLocker s.lockers l2, Sh, Se, n2, c⟩ := by
  refine ⟨TokInv_save s locker l2 Sh Se n2 c hInv hfind hn htok, hn, ?_⟩
  have hmem : locker ∈ s.lockers := by
    rw [findLocker] at hfind
    exact List.mem_of_find?_eq_some hfind
  intro t hmemt
  have hm2 : t ∈ (saveLocker s.lockers l2).map fun l => l.lockerToken := hmemt
  rw [toks_saveLocker] at hm2
  rcases List.mem_map.mp hm2 with ⟨z, hz, hzt⟩
  by_cases hcz : z.lockerId = l2.lockerId
  · rw [if_pos hcz] at hzt
    rcases htok with h | ⟨m, hm1, hm3, hm4⟩
    · refine Or.inl ?_
      rw [← hzt, h]
      exact mem_liveToks s locker hmem
    · exact Or.inr ⟨m, hm1, by rw [← hzt, hm4]⟩
  · rw [if_neg hcz] at hzt
    refine Or.inl ?_
    rw [← hzt]
    exact mem_liveToks s z hz

lemma tokStep_append (s : System) (id : String)
    (Sh : List Shipment) (Se : List (String × WeightSession)) (c : Nat)
    (hnone : findLocker s id = none) (hInv : TokInv s) :
    TokStep s ⟨s.lockers ++
      [⟨id, randomToken s.tokCtr, none, [], [], none, true, "unknown"⟩],
      Sh, Se, s.tokCtr + 1, c⟩ := by
  refine ⟨TokInv_append s id Sh Se c hnone hInv, Nat.le_succ _, ?_⟩
  intro t hmemt
  have hm2 : t ∈ (s.lockers ++
      [({ lockerId := id, lockerToken := randomToken s.tokCtr,
          tokenUpdatedAt := none, pendingResi := [], courierHistory := [],
          command := none, isActive := true,
          status := "unknown" } : Locker)]).map
        (fun l => l.lockerToken) := hmemt
  rw [List.map_append] at hm2
  rcases List.mem_append.mp hm2 with h | h
  · exact Or.inl h
  · simp at h
    exact Or.inr ⟨s.tokCtr, le_refl _, h⟩

lemma tokStep_trans {s s1 s2 : System} (h1 : TokStep s s1)
    (h2 : TokStep s1 s2) : TokStep s s2 := by
  obtain ⟨hi1, hn1, hs1⟩ := h1
  obtain ⟨hi2, hn2, hs2⟩ := h2
  refine ⟨hi2, le_trans hn1 hn2, ?_⟩
  intro t hmem
  rcases hs2 t hmem with h | ⟨m, hm1, hm2⟩
  · exact hs1 t h
  · exact Or.inr ⟨m, le_trans hn1 hm1, hm2⟩

lemma tokStep_congr {s s2 s3 : System} (h : TokStep s s2)
    (hl : s3.lockers = s2.lockers) (hn : s3.tokCtr = s2.tokCtr) :
    TokStep s s3 := by
  obtain ⟨⟨hids, htoks, hbnd⟩, hctr, hsub⟩ := h
  refine ⟨⟨?_, ?_, ?_⟩, ?_, ?_⟩
  · show (s3.lockers.map fun l => l.lockerId).Nodup
    rw [hl]
    exact hids
  · show (s3.lockers.map fun l => l.lockerToken).Nodup
    rw [hl]
    exact htoks
  · intro l hmem
    rw [hl] at hmem
    rw [hn]
    exact hbnd l hmem
  · rw [hn]
    exact hctr
  · intro t hmem
    refine hsub t ?_
    show t ∈ s2.lockers.map fun l => l.lockerToken
    rw [← hl]
    exact hmem

lemma assignStep_fst_fields (a b d : String) (n : Nat)
    (acc : Locker × List Shipment) (x : String) :
    (assignStep a b d n acc x).1.lockerId = acc.1.lockerId ∧
    (assignStep a b d n acc x).1.lockerToken = acc.1.lockerToken := by
  rw [assignStep]
  dsimp only
  split <;> (try split) <;> exact ⟨rfl, rfl⟩

lemma foldl_assignStep_fst (a b d : String) (n : Nat) (c : List String)
    (acc : Locker × List Shipment) :
    (c.foldl (assignStep a b d n) acc).1.lockerId = acc.1.lockerId ∧
    (c.foldl (assignStep a b d n) acc).1.lockerToken
      = acc.1.lockerToken := by
  induction c generalizing acc with
  | nil => exact ⟨rfl, rfl⟩
  | cons x c ih =>
    rw [List.foldl_cons]
    obtain ⟨h1, h2⟩ := ih (assignStep a b d n acc x)
    obtain ⟨g1, g2⟩ := assignStep_fst_fields a b d n acc x
    exact ⟨h1.trans g1, h2.trans g2⟩

lemma findLocker_append_fresh (s : System) (id : String) (l : Locker)
    (hnone : findLocker s id = none) (hid : l.lockerId = id) :
    (s.lockers ++ [l]).find? (fun x => x.lockerId = id) = some l := by
  rw [List.find?_append]
  rw [findLocker] at hnone
  rw [hnone]
  simp [hid]

lemma execDepositResi_success (s : System) (a tok r : String) :
    (execDepositResi s a tok r).2 = .success →
    ∃ locker, findLocker s a = some locker ∧
      locker.lockerToken = jsTrim tok ∧
      ∃ l2, (execDepositResi s a tok r).1.lockers
          = saveLocker s.lockers l2 ∧
        l2.lockerId = locker.lockerId ∧
        l2.lockerToken = randomToken s.tokCtr ∧
        (execDepositResi s a tok r).1.tokCtr = s.tokCtr + 1 := by
  rw [execDepositResi]
  by_cases h1 : (a = "" ∨ tok = "" ∨ r = "")
  · rw [if_pos h1]
    intro h
    exact Res.noConfusion h
  rw [if_neg h1]
  rcases hL : findLocker s a with _ | locker
  · intro h
    exact Res.noConfusion h
  dsimp only
  by_cases h2 : (locker.lockerToken = "" ∨ locker.lockerToken ≠ jsTrim tok)
  · rw [if_pos h2]
    intro h
    exact Res.noConfusion h
  rw [if_neg h2]
  rcases hA : findShipmentAt s r a with _ | sh
  · dsimp only
    rcases hB : findShipment s r with _ | sh0
    · intro h
      exact Res.noConfusion h
    · intro h
      exact Res.noConfusion h
  dsimp only
  by_cases h3 : sh.status ≠ .pending_locker
  · rw [if_pos h3]
    intro h
    exact Res.noConfusion h
  rw [if_neg h3]
  intro h
  dsimp only
  refine ⟨locker, rfl, not_not.mp (not_or.mp h2).2, ?_⟩
  refine ⟨_, rfl, ?_, rfl, rfl⟩
  by_cases hm : r ∈ locker.pendingResi <;> simp [hm]

lemma execDepositToken_success (s : System) (a tok r : String)
    (w : Option ℚ) :
    (execDepositToken s a tok r w).2 = .success →
    ∃ locker, findLocker s a = some locker ∧
      locker.lockerToken = jsTrim tok ∧
      ∃ l2, (execDepositToken s a tok r w).1.lockers
          = saveLocker s.lockers l2 ∧
        l2.lockerId = locker.lockerId ∧
        l2.lockerToken = randomToken s.tokCtr ∧
        (execDepositToken s a tok r w).1.tokCtr = s.tokCtr + 1 := by
  rw [execDepositToken]
  by_cases h1 : (a = "" ∨ tok = "" ∨ r = "")
  · rw [if_pos h1]
    intro h
    exact Res.noConfusion h
  rw [if_neg h1]
  rcases hL : findLocker s a with _ | locker
  · intro h
    exact Res.noConfusion h
  dsimp only
  by_cases h2 : (locker.lockerToken = "" ∨ locker.lockerToken ≠ jsTrim tok)
  · rw [if_pos h2]
    intro h
    exact Res.noConfusion h
  rw [if_neg h2]
  rcases hA : findShipmentAt s r a with _ | sh
  · dsimp only
    rcases hB : findShipment s r with _ | sh0
    · intro h
      exact Res.noConfusion h
    · intro h
      exact Res.noConfusion h
  dsimp only
  by_cases h3 : sh.status ≠ .pending_locker
  · rw [if_pos h3]
    intro h
    exact Res.noConfusion h
  rw [if_neg h3]
  intro h
  dsimp only
  refine ⟨locker, rfl, not_not.mp (not_or.mp h2).2, ?_⟩
  refine ⟨_, rfl, ?_, rfl, rfl⟩
  by_cases hm : r ∈ locker.pendingResi <;> simp [hm]

lemma execDepositPlate_success (s : System) (tok plate : String) :
    (execDepositPlate s tok plate).2 = .success →
    ∃ locker, s.lockers.find? (fun l => l.lockerToken = jsTrim tok)
        = some locker ∧
      ∃ l2, (execDepositPlate s tok plate).1.lockers
          = saveLocker s.lockers l2 ∧
        l2.lockerId = locker.lockerId ∧
        l2.lockerToken = randomToken s.tokCtr ∧
        (execDepositPlate s tok plate).1.tokCtr = s.tokCtr + 1 := by
  rw [execDepositPlate]
  by_cases h1 : (tok = "" ∨ plate = "")
  · rw [if_pos h1]
    intro h
    exact Res.noConfusion h
  rw [if_neg h1]
  dsimp only
  rcases hL : s.lockers.find? (fun l => l.lockerToken = jsTrim tok)
    with _ | locker
  · rw [hL]
    intro h
    exact Res.noConfusion h
  rw [hL]
  dsimp only
  rcases hA : s.shipments.find? (fun sh =>
      sh.courierPlate = toUpperStr (jsTrim plate) ∧
        sh.status = ShipStatus.pending_locker ∧
        sh.lockerId = locker.lockerId) with _ | shA
  · rw [hA]
    intro h
    exact Res.noConfusion h
  rw [hA]
  intro h
  dsimp only
  exact ⟨locker, rfl, _, rfl, rfl, rfl, rfl⟩

lemma execLegacyDeposit_success (s : System) (a tok r : String) :
    (execLegacyDeposit s a tok r).2 = .success →
    ∃ locker, findLocker s a = some locker ∧
      tok = locker.lockerToken ∧
      ∃ l2, (execLegacyDeposit s a tok r).1.lockers
          = saveLocker s.lockers l2 ∧
        l2.lockerId = locker.lockerId ∧
        l2.lockerToken = randomToken s.tokCtr ∧
        (execLegacyDeposit s a tok r).1.tokCtr = s.tokCtr + 1 := by
  rw [execLegacyDeposit]
  by_cases h1 : (tok = "" ∨ r = "")
  · rw [if_pos h1]
    intro h
    exact Res.noConfusion h
  rw [if_neg h1]
  dsimp only
  rw [getLocker]
  rcases hG : findLocker s a with _ | locker
  · dsimp only
    by_cases h2 : tok ≠ randomToken s.tokCtr
    · rw [if_pos h2]
      intro h
      exact Res.noConfusion h
    · rw [if_neg h2]
      rw [if_pos (by simp : r ∉ ([] : List String))]
      intro h
      exact Res.noConfusion h
  dsimp only
  by_cases h2 : tok ≠ locker.lockerToken
  · rw [if_pos h2]
    intro h
    exact Res.noConfusion h
  rw [if_neg h2]
  by_cases h3 : r ∉ locker.pendingResi
  · rw [if_pos h3]
    intro h
    exact Res.noConfusion h
  rw [if_neg h3]
  rcases hB : findShipment s r with _ | sh
  · intro h
    exact Res.noConfusion h
  intro h
  dsimp only
  exact ⟨locker, rfl, not_not.mp h2, _, rfl, rfl, rfl, rfl⟩

lemma execDepositResi_failure (s : System) (a tok r : String) :
    (execDepositResi s a tok r).2 ≠ .success →
    (execDepositResi s a tok r).1 = s := by
  rw [execDepositResi]
  by_cases h1 : (a = "" ∨ tok = "" ∨ r = "")
  · rw [if_pos h1]
    intro _
    rfl
  rw [if_neg h1]
  rcases hL : findLocker s a with _ | locker
  · intro _
    rfl
  dsimp only
  by_cases h2 : (locker.lockerToken = "" ∨ locker.lockerToken ≠ jsTrim tok)
  · rw [if_pos h2]
    intro _
    rfl
  rw [if_neg h2]
  rcases hA : findShipmentAt s r a with _ | sh
  · dsimp only
    rcases hB : findShipment s r with _ | sh0
    · intro _
      rfl
    · intro _
      rfl
  dsimp only
  by_cases h3 : sh.status ≠ .pending_locker
  · rw [if_pos h3]
    intro _
    rfl
  rw [if_neg h3]
  intro h
  exact absurd rfl h

lemma execDepositToken_failure (s : System) (a tok r : String)
    (w : Option ℚ) :
    (execDepositToken s a tok r w).2 ≠ .success →
    (execDepositToken s a tok r w).1 = s := by
  rw [execDepositToken]
  by_cases h1 : (a = "" ∨ tok = "" ∨ r = "")
  · rw [if_pos h1]
    intro _
    rfl
  rw [if_neg h1]
  rcases hL : findLocker s a with _ | locker
  · intro _
    rfl
  dsimp only
  by_cases h2 : (locker.lockerToken = "" ∨ locker.lockerToken ≠ jsTrim tok)
  · rw [if_pos h2]
    intro _
    rfl
  rw [if_neg h2]
  rcases hA : findShipmentAt s r a with _ | sh
  · dsimp only
    rcases hB : findShipment s r with _ | sh0
    · intro _
      rfl
    · intro _
      rfl
  dsimp only
  by_cases h3 : sh.status ≠ .pending_locker
  · rw [if_pos h3]
    intro _
    rfl
  rw [if_neg h3]
  intro h
  exact absurd rfl h

lemma execDepositPlate_failure (s : System) (tok plate : String) :
    (execDepositPlate s tok plate).2 ≠ .success →
    (execDepositPlate s tok plate).1 = s := by
  rw [execDepositPlate]
  by_cases h1 : (tok = "" ∨ plate = "")
  · rw [if_pos h1]
    intro _
    rfl
  rw [if_neg h1]
  dsimp only
  rcases hL : s.lockers.find? (fun l => l.lockerToken = jsTrim tok)
    with _ | locker
  · rw [hL]
    intro _
    rfl
  rw [hL]
  dsimp only
  rcases hA : s.shipments.find? (fun sh =>
      sh.courierPlate = toUpperStr (jsTrim plate) ∧
        sh.status = ShipStatus.pending_locker ∧
        sh.lockerId = locker.lockerId) with _ | shA
  · rw [hA]
    intro _
    rfl
  rw [hA]
  intro h
  exact absurd rfl h

lemma execLegacyDeposit_failure (s : System) (a tok r : String) :
    (execLegacyDeposit s a tok r).2 ≠ .success →
    (execLegacyDeposit s a tok r).1 = s ∨
    (findLocker s a = none ∧
     (execLegacyDeposit s a tok r).1.lockers = s.lockers ++
       [⟨a, randomToken s.tokCtr, none, [], [], none, true, "unknown"⟩] ∧
     (execLegacyDeposit s a tok r).1.tokCtr = s.tokCtr + 1) := by
  rw [execLegacyDeposit]
  by_cases h1 : (tok = "" ∨ r = "")
  · rw [if_pos h1]
    intro _
    exact Or.inl rfl
  rw [if_neg h1]
  dsimp only
  rw [getLocker]
  rcases hG : findLocker s a with _ | locker
  · dsimp only
    by_cases h2 : tok ≠ randomToken s.tokCtr
    · rw [if_pos h2]
      intro _
      exact Or.inr ⟨rfl, rfl, rfl⟩
    · rw [if_neg h2]
      rw [if_pos (by simp : r ∉ ([] : List String))]
      intro _
      exact Or.inr ⟨rfl, rfl, rfl⟩
  dsimp only
  by_cases h2 : tok ≠ locker.lockerToken
  · rw [if_pos h2]
    intro _
    exact Or.inl rfl
  rw [if_neg h2]
  by_cases h3 : r ∉ locker.pendingResi
  · rw [if_pos h3]
    intro _
    exact Or.inl rfl
  rw [if_neg h3]
  rcases hB : findShipment s r with _ | sh
  · intro _
    exact Or.inl rfl
  intro h
  exact absurd rfl h

lemma tokStep_execLog (s : System) (a ev r : String) (hInv : TokInv s) :
    TokStep s (execLog s a ev r).1 := by
  rw [execLog]
  rcases hB : (if r ≠ "" then findShipment s r else none) with _ | sh
  · exact tokStep_of_eq s _ hInv rfl rfl
  · exact tokStep_of_eq s _ hInv rfl rfl

lemma tokStep_execWeightStart (s : System) (a r : String)
    (hInv : TokInv s) : TokStep s (execWeightStart s a r).1 := by
  rw [execWeightStart]
  by_cases h1 : r = ""
  · rw [if_pos h1]
    exact tokStep_refl s hInv
  · rw [if_neg h1]
    exact tokStep_of_eq s _ hInv rfl rfl

lemma tokStep_execWeightReading (s : System) (a : String) (w : ℚ)
    (hInv : TokInv s) : TokStep s (execWeightReading s a w).1 := by
  rw [execWeightReading]
  by_cases h1 : (w < 0 ∨ 50 < w)
  · rw [if_pos h1]
    exact tokStep_refl s hInv
  rw [if_neg h1]
  rcases hS : getSession s a with _ | sess
  · exact tokStep_refl s hInv
  dsimp only
  by_cases h2 : sess.active = false
  · rw [if_pos h2]
    exact tokStep_refl s hInv
  · rw [if_neg h2]
    exact tokStep_of_eq s _ hInv rfl rfl

lemma tokStep_execWeightFinalize (s : System) (a : String)
    (hInv : TokInv s) : TokStep s (execWeightFinalize s a).1 := by
  rw [execWeightFinalize]
  rcases hS : getSession s a with _ | sess
  · exact tokStep_refl s hInv
  dsimp only
  by_cases h2 : sess.active = false
  · rw [if_pos h2]
    exact tokStep_refl s hInv
  rw [if_neg h2]
  by_cases h3 : sess.readings.length < 2
  · rw [if_pos h3]
    exact tokStep_refl s hInv
  rw [if_neg h3]
  rcases hB : findShipment s sess.resi with _ | sh0
  · exact tokStep_of_eq s _ hInv rfl rfl
  dsimp only
  rcases hW : sh0.weight with _ | w0
  · exact tokStep_of_eq s _ hInv rfl rfl
  · exact tokStep_of_eq s _ hInv rfl rfl

lemma tokStep_execDepositResi (s : System) (a tok r : String)
    (hInv : TokInv s) : TokStep s (execDepositResi s a tok r).1 := by
  by_cases h : (execDepositResi s a tok r).2 = .success
  · obtain ⟨locker, hL, htk, l2, hlk, hid, htok2, hctr⟩ :=
      execDepositResi_success s a tok r h
    have hida : locker.lockerId = a := by
      rw [findLocker] at hL
      have h2 := List.find?_some hL
      simpa using h2
    have hfind : findLocker s l2.lockerId = some locker := by
      rw [hid, hida]
      exact hL
    exact tokStep_congr (tokStep_save s locker l2 [] [] (s.tokCtr + 1) 0
      hInv hfind (Nat.le_succ _)
      (Or.inr ⟨s.tokCtr, le_refl _, Nat.lt_succ_self _, htok2⟩)) hlk hctr
  · have hfl := execDepositResi_failure s a tok r h
    rw [hfl]
    exact tokStep_refl s hInv

lemma tokStep_execDepositToken (s : System) (a tok r : String)
    (w : Option ℚ) (hInv : TokInv s) :
    TokStep s (execDepositToken s a tok r w).1 := by
  by_cases h : (execDepositToken s a tok r w).2 = .success
  · obtain ⟨locker, hL, htk, l2, hlk, hid, htok2, hctr⟩ :=
      execDepositToken_success s a tok r w h
    have hida : locker.lockerId = a := by
      rw [findLocker] at hL
      have h2 := List.find?_some hL
      simpa using h2
    have hfind : findLocker s l2.lockerId = some locker := by
      rw [hid, hida]
      exact hL
    exact tokStep_congr (tokStep_save s locker l2 [] [] (s.tokCtr + 1) 0
      hInv hfind (Nat.le_succ _)
      (Or.inr ⟨s.tokCtr, le_refl _, Nat.lt_succ_self _, htok2⟩)) hlk hctr
  · have hfl := execDepositToken_failure s a tok r w h
    rw [hfl]
    exact tokStep_refl s hInv

lemma tokStep_execDepositPlate (s : System) (tok plate : String)
    (hInv : TokInv s) : TokStep s (execDepositPlate s tok plate).1 := by
  by_cases h : (execDepositPlate s tok plate).2 = .success
  · obtain ⟨locker, hL, l2, hlk, hid, htok2, hctr⟩ :=
      execDepositPlate_success s tok plate h
    have hmem : locker ∈ s.lockers := List.mem_of_find?_eq_some hL
    have hfind : findLocker s l2.lockerId = some locker := by
      rw [findLocker, hid]
      exact find_by_id_of_mem s.lockers locker hInv.1 hmem
    exact tokStep_congr (tokStep_save s locker l2 [] [] (s.tokCtr + 1) 0
      hInv hfind (Nat.le_succ _)
      (Or.inr ⟨s.tokCtr, le_refl _, Nat.lt_succ_self _, htok2⟩)) hlk hctr
  · have hfl := execDepositPlate_failure s tok plate h
    rw [hfl]
    exact tokStep_refl s hInv

lemma tokStep_execLegacyDeposit (s : System) (a tok r : String)
    (hInv : TokInv s) : TokStep s (execLegacyDeposit s a tok r).1 := by
  by_cases h : (execLegacyDeposit s a tok r).2 = .success
  · obtain ⟨locker, hL, htk, l2, hlk, hid, htok2, hctr⟩ :=
      execLegacyDeposit_success s a tok r h
    have hida : locker.lockerId = a := by
      rw [findLocker] at hL
      have h2 := List.find?_some hL
      simpa using h2
    have hfind : findLocker s l2.lockerId = some locker := by
      rw [hid, hida]
      exact hL
    exact tokStep_congr (tokStep_save s locker l2 [] [] (s.tokCtr + 1) 0
      hInv hfind (Nat.le_succ _)
      (Or.inr ⟨s.tokCtr, le_refl _, Nat.lt_succ_self _, htok2⟩)) hlk hctr
  · rcases execLegacyDeposit_failure s a tok r h with hfl | ⟨hnone, hlk, hctr⟩
    · rw [hfl]
      exact tokStep_refl s hInv
    · exact tokStep_congr (tokStep_append s a [] [] 0 hnone hInv) hlk hctr

lemma tokStep_execAssign (s : System) (a b : String) (c : List String)
    (d : String) (hInv : TokInv s) :
    TokStep s (execAssign s a b c d).1 := by
  rw [execAssign]
  by_cases h1 : (a = "" ∨ b = "" ∨ c = [])
  · rw [if_pos h1]
    exact tokStep_refl s hInv
  rw [if_neg h1]
  dsimp only
  rw [getLocker]
  rcases hG : findLocker s a with _ | locker
  · dsimp only
    have step1 : TokStep s
        ⟨s.lockers ++
          [⟨a, randomToken s.tokCtr, none, [], [], none, true, "unknown"⟩],
          [], [], s.tokCtr + 1, 0⟩ :=
      tokStep_append s a [] [] 0 hG hInv
    have hq := foldl_assignStep_fst a b d s.clock c
      (⟨a, randomToken s.tokCtr, none, [], [], none, true, "unknown"⟩,
        s.shipments)
    have hfind : findLocker
        ⟨s.lockers ++
          [⟨a, randomToken s.tokCtr, none, [], [], none, true, "unknown"⟩],
          [], [], s.tokCtr + 1, 0⟩
        (c.foldl (assignStep a b d s.clock)
          (⟨a, randomToken s.tokCtr, none, [], [], none, true, "unknown"⟩,
            s.shipments)).1.lockerId
        = some ⟨a, randomToken s.tokCtr, none, [], [], none, true,
            "unknown"⟩ := by
      rw [findLocker, hq.1]
      exact findLocker_append_fresh s a _ hG rfl
    refine tokStep_trans step1 (tokStep_congr (tokStep_save _ _ _
      [] [] (s.tokCtr + 1) 0 step1.1 hfind (le_refl _)
      (Or.inl hq.2)) rfl rfl)
  · dsimp only
    have hida : locker.lockerId = a := by
      rw [findLocker] at hG
      have h2 := List.find?_some hG
      simpa using h2
    have hq := foldl_assignStep_fst a b d s.clock c (locker, s.shipments)
    have hfind : findLocker s
        (c.foldl (assignStep a b d s.clock)
          (locker, s.shipments)).1.lockerId = some locker := by
      rw [hq.1, hida]
      exact hG
    exact tokStep_congr (tokStep_save s locker _ [] [] s.tokCtr 0
      hInv hfind (le_refl _) (Or.inl hq.2)) rfl rfl

lemma tokStep_exec (s : System) (op : Op) (hInv : TokInv s) :
    TokStep s (exec s op).1 := by
  cases op with
  | assign a b c d => exact tokStep_execAssign s a b c d hInv
  | depositResi a b c => exact tokStep_execDepositResi s a b c hInv
  | depositToken a b c w => exact tokStep_execDepositToken s a b c w hInv
  | legacyDeposit a b c => exact tokStep_execLegacyDeposit s a b c hInv
  | depositPlate a b => exact tokStep_execDepositPlate s a b hInv
  | logEvent a b c => exact tokStep_execLog s a b c hInv
  | weightStart a b => exact tokStep_execWeightStart s a b hInv
  | weightReading a w => exact tokStep_execWeightReading s a w hInv
  | weightFinalize a => exact tokStep_execWeightFinalize s a hInv

lemma TokInv_initSystem : TokInv initSystem := by
  refine ⟨List.nodup_nil, List.nodup_nil, ?_⟩
  intro l hmem
  cases hmem

lemma tokStep_runOps (s : System) (ops : List Op) (hInv : TokInv s) :
    TokStep s (runOps s ops) := by
  induction ops generalizing s with
  | nil => exact tokStep_refl s hInv
  | cons op ops ih =>
    have h1 := tokStep_exec s op hInv
    have h2 := ih (exec s op).1 h1.1
    exact tokStep_trans h1 h2

lemma dead_stays (s : System) (ops : List Op) (t : String) (k : Nat)
    (hInv : TokInv s) (hk : k < s.tokCtr) (ht : t = randomToken k)
    (hdead : t ∉ liveToks s) : t ∉ liveToks (runOps s ops) := by
  obtain ⟨_, hn, hsub⟩ := tokStep_runOps s ops hInv
  intro hmem
  rcases hsub t hmem with h | ⟨m, hm1, hm2⟩
  · exact hdead h
  · rw [ht] at hm2
    have hkm := randomToken_inj hm2
    omega

lemma consumed_token_dead (s : System) (locker l2 : Locker)
    (hInv : TokInv s) (hmem : locker ∈ s.lockers)
    (hid : l2.lockerId = locker.lockerId)
    (hl2 : l2.lockerToken = randomToken s.tokCtr) :
    locker.lockerToken ∉
      (saveLocker s.lockers l2).map fun l => l.lockerToken := by
  obtain ⟨hids, htoks, hbnd⟩ := hInv
  obtain ⟨k, hk, hkt⟩ := hbnd locker hmem
  intro hmemt
  rw [toks_saveLocker] at hmemt
  rcases List.mem_map.mp hmemt with ⟨z, hz, hzt⟩
  by_cases hcz : z.lockerId = l2.lockerId
  · rw [if_pos hcz, hl2, hkt] at hzt
    have hkm := randomToken_inj hzt
    omega
  · rw [if_neg hcz] at hzt
    have hzeq : z = locker :=
      List.inj_on_of_nodup_map htoks hz hmem hzt
    rw [hzeq, hid] at hcz
    exact hcz rfl

lemma success_presented_live (s : System) (op : Op) (tok : String)
    (hInv : TokInv s) (hp : presentedTok op = some tok)
    (hsucc : (exec s op).2 = .success) :
    jsTrim tok ∈ liveToks s := by
  cases op with
  | assign a b c d => cases hp
  | logEvent a b c => cases hp
  | weightStart a b => cases hp
  | weightReading a w => cases hp
  | weightFinalize a => cases hp
  | depositResi a tk r =>
    have htk : tk = tok := by
      have hp2 : some tk = some tok := hp
      exact Option.some.injEq tk tok ▸ hp2
    subst htk
    obtain ⟨locker, hL, htok, _, _, _, _, _⟩ :=
      execDepositResi_success s a tk r hsucc
    have hmem : locker ∈ s.lockers := by
      rw [findLocker] at hL
      exact List.mem_of_find?_eq_some hL
    rw [← htok]
    exact mem_liveToks s locker hmem
  | depositToken a tk r w =>
    have htk : tk = tok := by
      have hp2 : some tk = some tok := hp
      exact Option.some.injEq tk tok ▸ hp2
    subst htk
    obtain ⟨locker, hL, htok, _, _, _, _, _⟩ :=
      execDepositToken_success s a tk r w hsucc
    have hmem : locker ∈ s.lockers := by
      rw [findLocker] at hL
      exact List.mem_of_find?_eq_some hL
    rw [← htok]
    exact mem_liveToks s locker hmem
  | depositPlate tk plate =>
    have htk : tk = tok := by
      have hp2 : some tk = some tok := hp
      exact Option.some.injEq tk tok ▸ hp2
    subst htk
    obtain ⟨locker, hL, _, _, _, _, _⟩ :=
      execDepositPlate_success s tk plate hsucc
    have hmem : locker ∈ s.lockers := List.mem_of_find?_eq_some hL
    have htok : locker.lockerToken = jsTrim tk := by
      have h2 := List.find?_some hL
      simpa using h2
    rw [← htok]
    exact mem_liveToks s locker hmem
  | legacyDeposit a tk r =>
    have htk : tk = tok := by
      have hp2 : some tk = some tok := hp
      exact Option.some.injEq tk tok ▸ hp2
    subst htk
    obtain ⟨locker, hL, htok, _, _, _, _, _⟩ :=
      execLegacyDeposit_success s a tk r hsucc
    have hmem : locker ∈ s.lockers := by
      rw [findLocker] at hL
      exact List.mem_of_find?_eq_some hL
    obtain ⟨k, hk, hkt⟩ := hInv.2.2 locker hmem
    have : jsTrim tk = locker.lockerToken := by
      rw [htok, hkt, jsTrim_randomToken]
    rw [this]
    exact mem_liveToks s locker hmem

lemma success_consumed_dead (s : System) (op : Op) (t : String)
    (hInv : TokInv s) (hdep : isDeposit op = true)
    (hsucc : (exec s op).2 = .success)
    (ht : consumedTok s op = some t) :
    (∃ k, k < (exec s op).1.tokCtr ∧ t = randomToken k) ∧
    t ∉ liveToks (exec s op).1 := by
  cases op with
  | assign a b c d => exact Bool.noConfusion hdep
  | logEvent a b c => exact Bool.noConfusion hdep
  | weightStart a b => exact Bool.noConfusion hdep
  | weightReading a w => exact Bool.noConfusion hdep
  | weightFinalize a => exact Bool.noConfusion hdep
  | depositResi a tk r =>
    obtain ⟨locker, hL, htok, l2, hlk, hid, htok2, hctr⟩ :=
      execDepositResi_success s a tk r hsucc
    have hmem : locker ∈ s.lockers := by
      rw [findLocker] at hL
      exact List.mem_of_find?_eq_some hL
    have ht2 : (findLocker s a).map (fun l => l.lockerToken) = some t := ht
    rw [hL] at ht2
    have hteq : locker.lockerToken = t := by
      simpa using ht2
    obtain ⟨k, hk, hkt⟩ := hInv.2.2 locker hmem
    show (∃ k, k < (execDepositResi s a tk r).1.tokCtr ∧ t = randomToken k) ∧
      t ∉ liveToks (execDepositResi s a tk r).1
    refine ⟨⟨k, by rw [hctr]; omega, by rw [← hteq, hkt]⟩, ?_⟩
    intro hmemt
    have hmemt2 : t ∈ ((execDepositResi s a tk r).1.lockers).map
        (fun l => l.lockerToken) := hmemt
    rw [hlk, ← hteq] at hmemt2
    exact consumed_token_dead s locker l2 hInv hmem hid htok2 hmemt2
  | depositToken a tk r w =>
    obtain ⟨locker, hL, htok, l2, hlk, hid, htok2, hctr⟩ :=
      execDepositToken_success s a tk r w hsucc
    have hmem : locker ∈ s.lockers := by
      rw [findLocker] at hL
      exact List.mem_of_find?_eq_some hL
    have ht2 : (findLocker s a).map (fun l => l.lockerToken) = some t := ht
    rw [hL] at ht2
    have hteq : locker.lockerToken = t := by
      simpa using ht2
    obtain ⟨k, hk, hkt⟩ := hInv.2.2 locker hmem
    show (∃ k, k < (execDepositToken s a tk r w).1.tokCtr ∧ t = randomToken k) ∧
      t ∉ liveToks (execDepositToken s a tk r w).1
    refine ⟨⟨k, by rw [hctr]; omega, by rw [← hteq, hkt]⟩, ?_⟩
    intro hmemt
    have hmemt2 : t ∈ ((execDepositToken s a tk r w).1.lockers).map
        (fun l => l.lockerToken) := hmemt
    rw [hlk, ← hteq] at hmemt2
    exact consumed_token_dead s locker l2 hInv hmem hid htok2 hmemt2
  | depositPlate tk plate =>
    obtain ⟨locker, hL, l2, hlk, hid, htok2, hctr⟩ :=
      execDepositPlate_success s tk plate hsucc
    have hmem : locker ∈ s.lockers := List.mem_of_find?_eq_some hL
    have ht2 : (s.lockers.find? (fun l => l.lockerToken = jsTrim tk)).map
        (fun l => l.lockerToken) = some t := ht
    rw [hL] at ht2
    have hteq : locker.lockerToken = t := by
      simpa using ht2
    obtain ⟨k, hk, hkt⟩ := hInv.2.2 locker hmem
    show (∃ k, k < (execDepositPlate s tk plate).1.tokCtr ∧ t = randomToken k) ∧
      t ∉ liveToks (execDepositPlate s tk plate).1
    refine ⟨⟨k, by rw [hctr]; omega, by rw [← hteq, hkt]⟩, ?_⟩
    intro hmemt
    have hmemt2 : t ∈ ((execDepositPlate s tk plate).1.lockers).map
        (fun l => l.lockerToken) := hmemt
    rw [hlk, ← hteq] at hmemt2
    exact consumed_token_dead s locker l2 hInv hmem hid htok2 hmemt2
  | legacyDeposit a tk r =>
    obtain ⟨locker, hL, htok, l2, hlk, hid, htok2, hctr⟩ :=
      execLegacyDeposit_success s a tk r hsucc
    have hmem : locker ∈ s.lockers := by
      rw [findLocker] at hL
      exact List.mem_of_find?_eq_some hL
    have ht2 : (some (getLocker s a).1).map (fun l => l.lockerToken)
        = some t := ht
    rw [getLocker, hL] at ht2
    have hteq : locker.lockerToken = t := by
      simpa using ht2
    obtain ⟨k, hk, hkt⟩ := hInv.2.2 locker hmem
    show (∃ k, k < (execLegacyDeposit s a tk r).1.tokCtr ∧ t = randomToken k) ∧
      t ∉ liveToks (execLegacyDeposit s a tk r).1
    refine ⟨⟨k, by rw [hctr]; omega, by rw [← hteq, hkt]⟩, ?_⟩
    intro hmemt
    have hmemt2 : t ∈ ((execLegacyDeposit s a tk r).1.lockers).map
        (fun l => l.lockerToken) := hmemt
    rw [hlk, ← hteq] at hmemt2
    exact consumed_token_dead s locker l2 hInv hmem hid htok2 hmemt2

lemma rotation_on_success (s : System) (op : Op)
    (hInv : TokInv s) (hdep : isDeposit op = true)
    (hsucc : (exec s op).2 = .success) :
    ∃ lk, depTarget s op = some lk ∧
      (∃ lk2, findLocker (exec s op).1 lk.lockerId = some lk2 ∧
        lk2.lockerToken ≠ lk.lockerToken) ∧
      ∀ l ∈ s.lockers, l.lockerId ≠ lk.lockerId →
        l ∈ (exec s op).1.lockers := by
  cases op with
  | assign a b c d => exact Bool.noConfusion hdep
  | logEvent a b c => exact Bool.noConfusion hdep
  | weightStart a b => exact Bool.noConfusion hdep
  | weightReading a w => exact Bool.noConfusion hdep
  | weightFinalize a => exact Bool.noConfusion hdep
  | depositResi a tk r =>
    obtain ⟨locker, hL, htok, l2, hlk, hid, htok2, hctr⟩ :=
      execDepositResi_success s a tk r hsucc
    have hida : locker.lockerId = a := by
      rw [findLocker] at hL
      have h2 := List.find?_some hL
      simpa using h2
    obtain ⟨k, hk, hkt⟩ := hInv.2.2 locker (by
      rw [findLocker] at hL
      exact List.mem_of_find?_eq_some hL)
    refine ⟨locker, hL, ⟨l2, ?_, ?_⟩, ?_⟩
    · show ((execDepositResi s a tk r).1.lockers.find?
        fun l => l.lockerId = locker.lockerId) = some l2
      rw [hlk]
      refine find_saveLocker s.lockers l2 locker.lockerId hid ?_
      rw [hida]
      rw [findLocker] at hL
      rw [hL]
      rfl
    · rw [htok2, hkt]
      intro hc
      have hkc := randomToken_inj hc
      omega
    · intro l hl hne
      show l ∈ (execDepositResi s a tk r).1.lockers
      rw [hlk]
      refine saveLocker_mem_of_ne s.lockers l2 l hl ?_
      rw [hid]
      exact hne
  | depositToken a tk r w =>
    obtain ⟨locker, hL, htok, l2, hlk, hid, htok2, hctr⟩ :=
      execDepositToken_success s a tk r w hsucc
    have hida : locker.lockerId = a := by
      rw [findLocker] at hL
      have h2 := List.find?_some hL
      simpa using h2
    obtain ⟨k, hk, hkt⟩ := hInv.2.2 locker (by
      rw [findLocker] at hL
      exact List.mem_of_find?_eq_some hL)
    refine ⟨locker, hL, ⟨l2, ?_, ?_⟩, ?_⟩
    · show ((execDepositToken s a tk r w).1.lockers.find?
        fun l => l.lockerId = locker.lockerId) = some l2
      rw [hlk]
      refine find_saveLocker s.lockers l2 locker.lockerId hid ?_
      rw [hida]
      rw [findLocker] at hL
      rw [hL]
      rfl
    · rw [htok2, hkt]
      intro hc
      have hkc := randomToken_inj hc
      omega
    · intro l hl hne
      show l ∈ (execDepositToken s a tk r w).1.lockers
      rw [hlk]
      refine saveLocker_mem_of_ne s.lockers l2 l hl ?_
      rw [hid]
      exact hne
  | depositPlate tk plate =>
    obtain ⟨locker, hL, l2, hlk, hid, htok2, hctr⟩ :=
      execDepositPlate_success s tk plate hsucc
    have hmem : locker ∈ s.lockers := List.mem_of_find?_eq_some hL
    obtain ⟨k, hk, hkt⟩ := hInv.2.2 locker hmem
    refine ⟨locker, hL, ⟨l2, ?_, ?_⟩, ?_⟩
    · show ((execDepositPlate s tk plate).1.lockers.find?
        fun l => l.lockerId = locker.lockerId) = some l2
      rw [hlk]
      refine find_saveLocker s.lockers l2 locker.lockerId hid ?_
      rw [find_by_id_of_mem s.lockers locker hInv.1 hmem]
      rfl
    · rw [htok2, hkt]
      intro hc
      have hkc := randomToken_inj hc
      omega
    · intro l hl hne
      show l ∈ (execDepositPlate s tk plate).1.lockers
      rw [hlk]
      refine saveLocker_mem_of_ne s.lockers l2 l hl ?_
      rw [hid]
      exact hne
  | legacyDeposit a tk r =>
    obtain ⟨locker, hL, htok, l2, hlk, hid, htok2, hctr⟩ :=
      execLegacyDeposit_success s a tk r hsucc
    have hida : locker.lockerId = a := by
      rw [findLocker] at hL
      have h2 := List.find?_some hL
      simpa using h2
    obtain ⟨k, hk, hkt⟩ := hInv.2.2 locker (by
      rw [findLocker] at hL
      exact List.mem_of_find?_eq_some hL)
    refine ⟨locker, ?_, ⟨l2, ?_, ?_⟩, ?_⟩
    · show some (getLocker s a).1 = some locker
      rw [getLocker, hL]
    · show ((execLegacyDeposit s a tk r).1.lockers.find?
        fun l => l.lockerId = locker.lockerId) = some l2
      rw [hlk]
      refine find_saveLocker s.lockers l2 locker.lockerId hid ?_
      rw [hida]
      rw [findLocker] at hL
      rw [hL]
      rfl
    · rw [htok2, hkt]
      intro hc
      have hkc := randomToken_inj hc
      omega
    · intro l hl hne
      show l ∈ (execLegacyDeposit s a tk r).1.lockers
      rw [hlk]
      refine saveLocker_mem_of_ne s.lockers l2 l hl ?_
      rw [hid]
      exact hne

lemma failure_keeps (s : System) (op : Op)
    (hdep : isDeposit op = true)
    (hfail : (exec s op).2 ≠ .success) :
    ∀ l ∈ s.lockers, l ∈ (exec s op).1.lockers := by
  cases op with
  | assign a b c d => exact Bool.noConfusion hdep
  | logEvent a b c => exact Bool.noConfusion hdep
  | weightStart a b => exact Bool.noConfusion hdep
  | weightReading a w => exact Bool.noConfusion hdep
  | weightFinalize a => exact Bool.noConfusion hdep
  | depositResi a tk r =>
    intro l hl
    show l ∈ (execDepositResi s a tk r).1.lockers
    rw [execDepositResi_failure s a tk r hfail]
    exact hl
  | depositToken a tk r w =>
    intro l hl
    show l ∈ (execDepositToken s a tk r w).1.lockers
    rw [execDepositToken_failure s a tk r w hfail]
    exact hl
  | depositPlate tk plate =>
    intro l hl
    show l ∈ (execDepositPlate s tk plate).1.lockers
    rw [execDepositPlate_failure s tk plate hfail]
    exact hl
  | legacyDeposit a tk r =>
    intro l hl
    show l ∈ (execLegacyDeposit s a tk r).1.lockers
    rcases execLegacyDeposit_failure s a tk r hfail with h | ⟨_, hlk, _⟩
    · rw [h]
      exact hl
    · rw [hlk]
      exact List.mem_append_left _ hl

lemma single_use_trace (ops1 : List Op) (op : Op) (ops2 : List Op)
    (op2 : Op) (t tok2 : String)
    (hdep : isDeposit op = true)
    (hsucc : (exec (runOps initSystem ops1) op).2 = .success)
    (ht : consumedTok (runOps initSystem ops1) op = some t)
    (hdep2 : isDeposit op2 = true)
    (hp2 : presentedTok op2 = some tok2)
    (htr : jsTrim tok2 = t) :
    (exec (runOps (exec (runOps initSystem ops1) op).1 ops2) op2).2
      ≠ .success := by
  have hInv1 : TokInv (runOps initSystem ops1) :=
    (tokStep_runOps initSystem ops1 TokInv_initSystem).1
  obtain ⟨⟨k, hk, hkt⟩, hdead⟩ :=
    success_consumed_dead (runOps initSystem ops1) op t hInv1 hdep hsucc ht
  have hInv2 : TokInv (exec (runOps initSystem ops1) op).1 :=
    (tokStep_exec (runOps initSystem ops1) op hInv1).1
  have hdead2 := dead_stays (exec (runOps initSystem ops1) op).1 ops2 t k
    hInv2 hk hkt hdead
  have hInv3 : TokInv (runOps (exec (runOps initSystem ops1) op).1 ops2) :=
    (tokStep_runOps (exec (runOps initSystem ops1) op).1 ops2 hInv2).1
  intro hsucc2
  have hlive := success_presented_live
    (runOps (exec (runOps initSystem ops1) op).1 ops2) op2 tok2
    hInv3 hp2 hsucc2
  rw [htr] at hlive
  exact hdead2 hlive

/-- C2: over any reachable state, a successful deposit through any of the
four deposit endpoints replaces the target locker's access token with a
fresh one (different from the consumed token) while leaving every other
locker record untouched; a failed deposit attempt leaves every existing
locker record unchanged; and a token consumed by one successful deposit
call is never accepted again by any later deposit call, for the same or
any other locker. -/
theorem claim2_token_rotation_single_use :
    (∀ ops op, isDeposit op = true →
      (exec (runOps initSystem ops) op).2 = .success →
      ∃ lk, depTarget (runOps initSystem ops) op = some lk ∧
        (∃ lk2, findLocker (exec (runOps initSystem ops) op).1 lk.lockerId
            = some lk2 ∧ lk2.lockerToken ≠ lk.lockerToken) ∧
        ∀ l ∈ (runOps initSystem ops).lockers, l.lockerId ≠ lk.lockerId →
          l ∈ (exec (runOps initSystem ops) op).1.lockers) ∧
    (∀ s op, isDeposit op = true → (exec s op).2 ≠ .success →
      ∀ l ∈ s.lockers, l ∈ (exec s op).1.lockers) ∧
    (∀ ops1 op ops2 op2 t tok2, isDeposit op = true →
      (exec (runOps initSystem ops1) op).2 = .success →
      consumedTok (runOps initSystem ops1) op = some t →
      isDeposit op2 = true → presentedTok op2 = some tok2 →
      jsTrim tok2 = t →
      (exec (runOps (exec (runOps initSystem ops1) op).1 ops2) op2).2
        ≠ .success) :=
  ⟨fun ops op hdep hsucc => rotation_on_success (runOps initSystem ops) op
      (tokStep_runOps initSystem ops TokInv_initSystem).1 hdep hsucc,
   fun s op hdep hfail => failure_keeps s op hdep hfail,
   fun ops1 op ops2 op2 t tok2 hdep hsucc ht hdep2 hp2 htr =>
     single_use_trace ops1 op ops2 op2 t tok2 hdep hsucc ht hdep2 hp2 htr⟩

/-- Witness for claim2_token_rotation_single_use: the token consumed by a
successful deposit-resi call is rejected when presented again
immediately afterwards. -/
theorem claim2_token_rotation_single_use_witness :
    (exec (runOps (exec (runOps initSystem
        [.assign "L1" "jne" ["R1", "R2"] ""])
        (.depositResi "L1" (randomToken 0) "R1")).1 [])
      (.depositResi "L1" (randomToken 0) "R2")).2 ≠ .success :=
  claim2_token_rotation_single_use.2.2
    [.assign "L1" "jne" ["R1", "R2"] ""]
    (.depositResi "L1" (randomToken 0) "R1") []
    (.depositResi "L1" (randomToken 0) "R2")
    (randomToken 0) (randomToken 0)
    (by decide) (by decide) (by decide) (by decide) (by decide) (by decide)


end SmartLocker
